import Mathlib

/-!
# Channel monitoring (`res/res_monitor.c`)

A shallow embedding of the three lifecycle operations of the call-monitoring
resource, `ast_monitor_start`, `ast_monitor_stop` and
`ast_monitor_change_fname`, together with the dial-plan entry point
`start_monitor_exec`.

* C strings are lists of characters (the bytes before the terminating NUL);
  a possibly-NULL `const char *` is an `Option`.
* `snprintf (buf, FILENAME_MAX, ...)` keeps the first `FILENAME_MAX - 1`
  characters of the formatted text.
* `seq` is an `unsigned long`: arithmetic is modulo `2 ^ ULONG_BITS`, and the
  `%ld` conversion prints the value as a signed long.
* The channel lock, the file layer (`ast_fileexists`, `ast_filedelete`,
  `ast_filerename`, `ast_writefile`, `ast_closestream`) and `mkdir` are
  collaborators declared in headers outside this file; they are modelled on an
  explicit `World`, and the outcomes the code branches on (lock acquired,
  file opened) are supplied by an `Env`.
* Logging and heap management (`malloc`, `strdup`, `free`) are not modelled.
-/

namespace ResMonitor

/-- Contents of a NUL-terminated C string. -/
abbrev CStr := List Char

/-- Build-time constants the source takes from its environment:
`INSTALL_PREFIX` (compiler command line), `FILENAME_MAX` (`<stdio.h>`) and the
width in bits of `unsigned long`. -/
structure Config where
  INSTALL_PREFIX : CStr
  FILENAME_MAX : Nat
  ULONG_BITS : Nat

/-- The macro `AST_MONITOR_DIR`: `INSTALL_PREFIX "/var/spool/asterisk/monitor"`. -/
def AST_MONITOR_DIR (cfg : Config) : CStr :=
  cfg.INSTALL_PREFIX ++ "/var/spool/asterisk/monitor".toList

/-- The record `struct ast_channel_monitor`; a stream pointer is a handle
number, `none` being NULL.  The `stop` member always holds
`ast_monitor_stop` and is left out. -/
structure ast_channel_monitor where
  read_stream : Option Nat
  write_stream : Option Nat
  read_filename : CStr
  write_filename : CStr
  filename_base : CStr
  format : CStr
deriving DecidableEq, Repr

/-- The members of `struct ast_channel` this file touches: the display name,
the mutex (as the number of acquisitions currently outstanding) and the
monitor attachment. -/
structure ast_channel where
  name : CStr
  lock : Nat
  monitor : Option ast_channel_monitor
deriving DecidableEq, Repr

/-- Process-wide state: the static counter `seq`, the files of the file layer
(path without format extension to the identity of the file stored there), the
handles of the streams currently open, the next handle to be handed out and
whether the monitor directory has been created. -/
structure World where
  seq : Nat
  files : CStr → Option Nat
  open_streams : List Nat
  next_stream : Nat
  monitor_dir : Bool

/-- Outcomes of the calls into collaborators that the code branches on or
that may fail: `ast_mutex_lock`, `mkdir`, and the two `ast_writefile` calls
of `ast_monitor_start`. -/
structure Env where
  lock_ok : Bool
  mkdir_ok : Bool
  read_open_ok : Bool
  write_open_ok : Bool
deriving DecidableEq, Repr

/-- What an operation leaves behind: its `int` result, the process-wide state
and the channel. -/
structure Ret where
  res : Int
  world : World
  chan : ast_channel

/-! ## Collaborators -/

/-- Modelled from the spec: `ast_mutex_lock` on the channel's "mutex-like
exclusive lock", on the path where it succeeds (one more acquisition is
outstanding). -/
def ast_mutex_lock (chan : ast_channel) : ast_channel :=
  { chan with lock := chan.lock + 1 }

/-- Modelled from the spec: `ast_mutex_unlock`, giving back one acquisition
(none is left to give back when none is outstanding). -/
def ast_mutex_unlock (chan : ast_channel) : ast_channel :=
  { chan with lock := chan.lock - 1 }

/-- Modelled from the spec: `mkdir (AST_MONITOR_DIR, 0770)`; a failure is only
logged by the caller. -/
def mkdir (env : Env) (w : World) : World :=
  if env.mkdir_ok then { w with monitor_dir := true } else w

/-- Modelled from the spec: `ast_fileexists (filename, NULL, NULL) > 0`, "the
working file currently exists". -/
def ast_fileexists (w : World) (filename : CStr) : Bool :=
  (w.files filename).isSome

/-- Modelled from the spec: `ast_filedelete (filename, NULL)`, "delete any
pre-existing file" at that name. -/
def ast_filedelete (w : World) (filename : CStr) : World :=
  { w with files := fun p => if p = filename then none else w.files p }

/-- Modelled from the spec: `ast_filerename (oldname, newname, fmt)`, "rename
the working file onto" the destination.  Nothing happens when there is no
file at `oldname`. -/
def ast_filerename (w : World) (oldname newname : CStr) : World :=
  match w.files oldname with
  | none => w
  | some f =>
    { w with files := fun p =>
        if p = newname then some f else if p = oldname then none else w.files p }

/-- Modelled from the spec: `ast_writefile (filename, fmt, NULL,
O_CREAT|O_TRUNC|O_WRONLY, 0, 0644)`, "opens a fresh output stream" at the
name.  On success a new file is stored at `filename` and the new handle is
returned; on failure the result is NULL. -/
def ast_writefile (ok : Bool) (w : World) (filename : CStr) : Option Nat × World :=
  if ok then
    (some w.next_stream,
      { w with
        files := fun p => if p = filename then some w.next_stream else w.files p
        open_streams := w.next_stream :: w.open_streams
        next_stream := w.next_stream + 1 })
  else (none, w)

/-- Modelled from the spec: `ast_closestream`, "closing flushes and finalizes
the file"; the handle is no longer open. -/
def ast_closestream (w : World) (h : Nat) : World :=
  { w with open_streams := w.open_streams.erase h }

/-! ## C library -/

/-- `snprintf (buf, size, ...)` applied to the fully formatted text: at most
`size - 1` characters are stored. -/
def snprintf (size : Nat) (text : CStr) : CStr :=
  text.take (size - 1)

/-- `strchr (s, c)` as the offset of the first occurrence, `none` for NULL. -/
def strchr : CStr → Char → Option Nat
  | [], _ => none
  | x :: xs, c => if x = c then some 0 else (strchr xs c).map (· + 1)

/-- The `%ld` conversion applied to an `unsigned long` holding `n`: the value
is read as a signed long of the same width. -/
def fmt_ld (cfg : Config) (n : Nat) : CStr :=
  if n < 2 ^ (cfg.ULONG_BITS - 1) then Nat.toDigits 10 n
  else '-' :: Nat.toDigits 10 (2 ^ cfg.ULONG_BITS - n)

/-- Lines 89-91 of `ast_monitor_start`:
`while ((p = strchr (channel_name, '/'))) *p = '-';`. -/
def replace_slashes (s : CStr) : CStr :=
  match h : strchr s '/' with
  | none => s
  | some i => replace_slashes (s.set i '-')
termination_by s.count '/'
decreasing_by
  have key : ∀ (t : CStr) (j : Nat), strchr t '/' = some j →
      (t.set j '-').count '/' < t.count '/' := by
    intro t
    induction t with
    | nil => intro j hj; simp [strchr] at hj
    | cons x xs ih =>
      intro j hj
      by_cases hx : x = '/'
      · subst hx
        simp [strchr] at hj
        subst hj
        simp [List.count_cons]
      · simp only [strchr, hx, if_false, Option.map_eq_some'] at hj
        obtain ⟨k, hk, rfl⟩ := hj
        have hlt := ih k hk
        have hx' : ¬ (x == '/') = true := by simpa using hx
        simp only [List.set_cons_succ, List.count_cons, hx', if_false]
        omega
  exact key s i h

/-! ## The lifecycle operations -/

/-- The test `p && strlen (p)` on a possibly-NULL string. -/
def has_text : Option CStr → Bool
  | some s => s.length != 0
  | none => false

/-- Lines 72-104 of `ast_monitor_start`: the freshly allocated, zeroed record
with its file names and format filled in, and the world after the counter has
been read and incremented (auto-naming branch only). -/
def determine_names (cfg : Config) (w : World) (chan : ast_channel)
    (format_spec fname_base : Option CStr) : ast_channel_monitor × World :=
  let format : CStr :=
    if has_text format_spec then format_spec.getD [] else ['w', 'a', 'v']
  if has_text fname_base then
    ({ read_stream := none
       write_stream := none
       read_filename :=
         snprintf cfg.FILENAME_MAX
           (AST_MONITOR_DIR cfg ++ '/' :: fname_base.getD [] ++ ['-', 'i', 'n'])
       write_filename :=
         snprintf cfg.FILENAME_MAX
           (AST_MONITOR_DIR cfg ++ '/' :: fname_base.getD [] ++ ['-', 'o', 'u', 't'])
       filename_base := []
       format := format }, w)
  else
    ({ read_stream := none
       write_stream := none
       read_filename :=
         snprintf cfg.FILENAME_MAX
           (AST_MONITOR_DIR cfg ++ '/' :: ['a', 'u', 'd', 'i', 'o', '-', 'i', 'n', '-']
             ++ fmt_ld cfg w.seq)
       write_filename :=
         snprintf cfg.FILENAME_MAX
           (AST_MONITOR_DIR cfg ++ '/' :: ['a', 'u', 'd', 'i', 'o', '-', 'o', 'u', 't', '-']
             ++ fmt_ld cfg w.seq)
       filename_base :=
         snprintf cfg.FILENAME_MAX (AST_MONITOR_DIR cfg ++ '/' :: replace_slashes chan.name)
       format := format },
     { w with seq := (w.seq + 1) % 2 ^ cfg.ULONG_BITS })

/-- Lines 106-132 of `ast_monitor_start`, entered with the lock taken (or
assumed held) and the record `monitor` built: open the two files, attach the
record.  The two failure returns unlock the channel without looking at
`need_lock`; the common exit (lines 139-142) unlocks only under `need_lock`. -/
def open_files (env : Env) (w : World) (chan : ast_channel)
    (monitor : ast_channel_monitor) (need_lock : Bool) : Ret :=
  let w1 := if ast_fileexists w monitor.read_filename
    then ast_filedelete w monitor.read_filename else w
  match ast_writefile env.read_open_ok w1 monitor.read_filename with
  | (none, w2) => ⟨-1, w2, ast_mutex_unlock chan⟩
  | (some rs, w2) =>
    let w3 := if ast_fileexists w2 monitor.write_filename
      then ast_filedelete w2 monitor.write_filename else w2
    match ast_writefile env.write_open_ok w3 monitor.write_filename with
    | (none, w4) => ⟨-1, ast_closestream w4 rs, ast_mutex_unlock chan⟩
    | (some ws, w4) =>
      let chan1 : ast_channel :=
        { chan with
          monitor := some { monitor with read_stream := some rs, write_stream := some ws } }
      ⟨0, w4, if need_lock then ast_mutex_unlock chan1 else chan1⟩

/-- The function `ast_monitor_start` (lines 45-143). -/
def ast_monitor_start (cfg : Config) (env : Env) (w : World) (chan : ast_channel)
    (format_spec fname_base : Option CStr) (need_lock : Bool) : Ret :=
  if need_lock = true ∧ env.lock_ok = false then ⟨-1, w, chan⟩
  else
    let chan1 := if need_lock then ast_mutex_lock chan else chan
    match chan1.monitor with
    | none =>
      let w1 := mkdir env w
      let built := determine_names cfg w1 chan1 format_spec fname_base
      open_files env built.2 chan1 built.1 need_lock
    | some _ => ⟨-1, w, if need_lock then ast_mutex_unlock chan1 else chan1⟩

/-- One of the two rename blocks of `ast_monitor_stop` (lines 166-177 and
179-190): when the working file exists, delete whatever is at the destination
and rename the working file onto it; otherwise only a warning is logged. -/
def rename_working (w : World) (working dest : CStr) : World :=
  if ast_fileexists w working then
    let w1 := if ast_fileexists w dest then ast_filedelete w dest else w
    ast_filerename w1 working dest
  else w

/-- The buffer `filename` after line 167: `snprintf (filename, FILENAME_MAX,
"%s-in", chan->monitor->filename_base)`. -/
def final_in (cfg : Config) (m : ast_channel_monitor) : CStr :=
  snprintf cfg.FILENAME_MAX (m.filename_base ++ ['-', 'i', 'n'])

/-- The buffer `filename` after line 180: `snprintf (filename, FILENAME_MAX,
"%s-out", chan->monitor->filename_base)`. -/
def final_out (cfg : Config) (m : ast_channel_monitor) : CStr :=
  snprintf cfg.FILENAME_MAX (m.filename_base ++ ['-', 'o', 'u', 't'])

/-- Lines 155-196 of `ast_monitor_stop`, for an attached record `m`: close the
streams, perform the deferred renames when `filename_base` is not empty. -/
def stop_attached (cfg : Config) (w : World) (m : ast_channel_monitor) : World :=
  let w1 := match m.read_stream with
    | some rs => ast_closestream w rs
    | none => w
  let w2 := match m.write_stream with
    | some ws => ast_closestream w1 ws
    | none => w1
  if has_text (some m.filename_base) then
    let w3 := rename_working w2 m.read_filename (final_in cfg m)
    rename_working w3 m.write_filename (final_out cfg m)
  else w2

/-- The function `ast_monitor_stop` (lines 146-202). -/
def ast_monitor_stop (cfg : Config) (env : Env) (w : World) (chan : ast_channel)
    (need_lock : Bool) : Ret :=
  if need_lock = true ∧ env.lock_ok = false then ⟨-1, w, chan⟩
  else
    let chan1 := if need_lock then ast_mutex_lock chan else chan
    match chan1.monitor with
    | some m =>
      let chan2 : ast_channel := { chan1 with monitor := none }
      ⟨0, stop_attached cfg w m, if need_lock then ast_mutex_unlock chan2 else chan2⟩
    | none => ⟨0, w, if need_lock then ast_mutex_unlock chan1 else chan1⟩

/-- The function `ast_monitor_change_fname` (lines 205-236). -/
def ast_monitor_change_fname (cfg : Config) (env : Env) (w : World) (chan : ast_channel)
    (fname_base : Option CStr) (need_lock : Bool) : Ret :=
  if has_text fname_base = false then ⟨-1, w, chan⟩
  else if need_lock = true ∧ env.lock_ok = false then ⟨-1, w, chan⟩
  else
    let chan1 := if need_lock then ast_mutex_lock chan else chan
    match chan1.monitor with
    | some m =>
      let chan2 : ast_channel :=
        { chan1 with
          monitor := some { m with
            filename_base :=
              snprintf cfg.FILENAME_MAX (AST_MONITOR_DIR cfg ++ '/' :: fname_base.getD []) } }
      ⟨0, w, if need_lock then ast_mutex_unlock chan2 else chan2⟩
    | none => ⟨0, w, if need_lock then ast_mutex_unlock chan1 else chan1⟩

/-- The function `start_monitor_exec` (lines 238-266), the dial-plan
application `Monitor`: the argument is split at the first `|` into format and
base name, then Start is tried and, when it fails, ChangeName.  Each of the
two calls takes the lock itself and meets its own outcomes. -/
def start_monitor_exec (cfg : Config) (env_start env_change : Env) (w : World)
    (chan : ast_channel) (data : Option CStr) : Ret :=
  let args : Option CStr × Option CStr :=
    if has_text data then
      match strchr (data.getD []) '|' with
      | some i => (some ((data.getD []).take i), some ((data.getD []).drop (i + 1)))
      | none => (data, none)
    else (none, none)
  let r := ast_monitor_start cfg env_start w chan args.1 args.2 true
  if r.res < 0 then ast_monitor_change_fname cfg env_change r.world r.chan args.2 true
  else r

/-- The function `stop_monitor_exec` (lines 268-271). -/
def stop_monitor_exec (cfg : Config) (env : Env) (w : World) (chan : ast_channel) : Ret :=
  ast_monitor_stop cfg env w chan true

/-- The function `change_monitor_exec` (lines 273-276). -/
def change_monitor_exec (cfg : Config) (env : Env) (w : World) (chan : ast_channel)
    (data : Option CStr) : Ret :=
  ast_monitor_change_fname cfg env w chan data true

/-! ## Executions over several channels -/

/-- A process: the process-wide state and the channels, by number. -/
structure System where
  world : World
  chans : Nat → ast_channel

/-- One call of a lifecycle operation on the channel numbered `c`, with the
outcomes it meets. -/
inductive Op where
  | start (c : Nat) (env : Env) (format_spec fname_base : Option CStr) (need_lock : Bool)
  | stop (c : Nat) (env : Env) (need_lock : Bool)
  | change (c : Nat) (env : Env) (fname_base : Option CStr) (need_lock : Bool)

/-- The channel an operation is called on. -/
def Op.target : Op → Nat
  | .start c _ _ _ _ => c
  | .stop c _ _ => c
  | .change c _ _ _ => c

/-- Run one operation on the process. -/
def Op.call (cfg : Config) (s : System) : Op → Ret
  | .start c env format_spec fname_base need_lock =>
    ast_monitor_start cfg env s.world (s.chans c) format_spec fname_base need_lock
  | .stop c env need_lock => ast_monitor_stop cfg env s.world (s.chans c) need_lock
  | .change c env fname_base need_lock =>
    ast_monitor_change_fname cfg env s.world (s.chans c) fname_base need_lock

/-- The process after one operation. -/
def step (cfg : Config) (s : System) (op : Op) : System :=
  { world := (op.call cfg s).world
    chans := Function.update s.chans op.target (op.call cfg s).chan }

/-- The process after a sequence of operations. -/
def run (cfg : Config) : System → List Op → System
  | s, [] => s
  | s, op :: ops => run cfg (step cfg s op) ops

/-- Whether an operation is a Start that reaches the auto-naming branch
(lines 79-95): the lock is taken when asked for, the channel is unmonitored
and `fname_base` is NULL or empty. -/
def auto_named (s : System) : Op → Bool
  | .start c env _ fname_base need_lock =>
    (!need_lock || env.lock_ok) && (s.chans c).monitor.isNone && !has_text fname_base
  | _ => false

/-- The counter values read by the auto-named Starts of an execution, in
order. -/
def seq_log (cfg : Config) : System → List Op → List Nat
  | _, [] => []
  | s, op :: ops =>
    (if auto_named s op then [s.world.seq] else []) ++ seq_log cfg (step cfg s op) ops

/-- A formatted text that `snprintf` stores whole. -/
def fits (cfg : Config) (text : CStr) : Prop :=
  text.length < cfg.FILENAME_MAX

instance (cfg : Config) (text : CStr) : Decidable (fits cfg text) := by
  unfold fits; infer_instance

/-- The character-wise description of the sanitised channel name. -/
def slash_to_dash (c : Char) : Char :=
  if c = '/' then '-' else c

/-! ## Concrete data used in the examples -/

/-- A Linux build with an empty `INSTALL_PREFIX`. -/
def cfg64 : Config := ⟨[], 4096, 64⟩

/-- The recording directory of `cfg64`. -/
def dir64 : CStr := "/var/spool/asterisk/monitor".toList

/-- A fresh process whose counter stands at 7. -/
def world7 : World := ⟨7, fun _ => none, [], 0, false⟩

/-- An unmonitored, unlocked channel named `Foo/1`. -/
def chanFoo : ast_channel := ⟨"Foo/1".toList, 0, none⟩

/-- Every collaborator call succeeds. -/
def env_ok : Env := ⟨true, true, true, true⟩

/-- The channel lock cannot be taken. -/
def env_lock_fails : Env := { env_ok with lock_ok := false }

/-- The first `ast_writefile`, for the read stream, fails. -/
def env_read_fails : Env := { env_ok with read_open_ok := false }

/-- The second `ast_writefile`, for the write stream, fails. -/
def env_write_fails : Env := { env_ok with write_open_ok := false }

/-- The channel `Foo/1`, unmonitored, its lock held once by the caller. -/
def chan_held : ast_channel := { chanFoo with lock := 1 }

/-- The channel `Foo/1` with the record `m` attached. -/
def chan_with (m : ast_channel_monitor) : ast_channel := { chanFoo with monitor := some m }

/-- A record as a custom-base Start with `x` followed by ChangeName to `x`
leaves it: the working names are `x-in` and `x-out`, the base is `x`. -/
def mon_x : ast_channel_monitor :=
  { read_stream := some 0
    write_stream := some 1
    read_filename := dir64 ++ "/x-in".toList
    write_filename := dir64 ++ "/x-out".toList
    filename_base := dir64 ++ "/x".toList
    format := "wav".toList }

/-- A world holding the two recordings of `mon_x`. -/
def world_x : World :=
  { seq := 7
    files := fun p =>
      if p = dir64 ++ "/x-in".toList then some 0
      else if p = dir64 ++ "/x-out".toList then some 1 else none
    open_streams := [1, 0]
    next_stream := 2
    monitor_dir := true }

/-- A record as an auto-named Start on `Foo/1` with the counter at 7 leaves
it. -/
def mon_auto : ast_channel_monitor :=
  { read_stream := some 0
    write_stream := some 1
    read_filename := dir64 ++ "/audio-in-7".toList
    write_filename := dir64 ++ "/audio-out-7".toList
    filename_base := dir64 ++ "/Foo-1".toList
    format := "wav".toList }

/-- A world holding the two recordings of `mon_auto` and an older file at the
`-in` destination. -/
def world_auto : World :=
  { seq := 8
    files := fun p =>
      if p = dir64 ++ "/audio-in-7".toList then some 0
      else if p = dir64 ++ "/audio-out-7".toList then some 1
      else if p = dir64 ++ "/Foo-1-in".toList then some 99 else none
    open_streams := [1, 0]
    next_stream := 2
    monitor_dir := true }

/-- A name of `FILENAME_MAX - 1` characters under `cfg64`. -/
@[irreducible] def long_name : CStr := List.replicate 4095 'a'

/-- A record whose base is as long as its buffer allows. -/
def mon_long : ast_channel_monitor :=
  { read_stream := some 0
    write_stream := some 1
    read_filename := ['r']
    write_filename := ['w']
    filename_base := long_name
    format := "wav".toList }

/-- A world holding the two recordings of `mon_long`. -/
def world_long : World :=
  { seq := 7
    files := fun p => if p = ['r'] then some 0 else if p = ['w'] then some 1 else none
    open_streams := [1, 0]
    next_stream := 2
    monitor_dir := true }

/-- An auto-named Start on `Foo/1` with the counter at 7. -/
def run_start : Ret := ast_monitor_start cfg64 env_ok world7 chanFoo none none true

/-- ChangeName to `y` after `run_start`. -/
def run_change : Ret :=
  ast_monitor_change_fname cfg64 env_ok run_start.world run_start.chan (some ['y']) true

/-- Stop after `run_change`. -/
def run_stop : Ret := ast_monitor_stop cfg64 env_ok run_change.world run_change.chan true

/-- A process whose counter stands at 7 and whose channels are all unmonitored
copies of `Foo/1`. -/
def sys7 : System := ⟨world7, fun _ => chanFoo⟩

/-- An auto-named Start on channel 0. -/
def op_auto : Op := .start 0 env_ok none none true

/-- Auto-named Starts on two channels, with a Stop, a second Start on the
still monitored channel 1, a ChangeName and a custom-base Start in between. -/
def ops7 : List Op :=
  [.start 0 env_ok none none true, .start 1 env_ok none (some []) false,
   .stop 0 env_ok true, .start 1 env_ok none none true, .change 1 env_ok (some ['y']) true,
   .start 0 env_ok (some ['g', 's', 'm']) none true, .stop 0 env_ok true,
   .start 0 env_ok none (some ['x']) true]

/-- A process whose counter holds the largest `unsigned long` of `cfg64`. -/
def sys_max : System := ⟨{ world7 with seq := 2 ^ 64 - 1 }, fun _ => chanFoo⟩

/-- A world whose counter holds `2 ^ 63`, the first value that does not fit a
`long` under `cfg64`. -/
def world_big : World := { world7 with seq := 2 ^ 63 }

/-! ## Basic facts -/

theorem snprintf_of_fits (cfg : Config) (text : CStr) (h : fits cfg text) :
    snprintf cfg.FILENAME_MAX text = text := by
  unfold snprintf
  apply List.take_of_length_le
  unfold fits at h
  omega

theorem fits_of_le (cfg : Config) (a b : CStr) (h : fits cfg b) (hl : a.length ≤ b.length) :
    fits cfg a := by
  unfold fits at *
  omega

theorem strchr_eq_none (s : CStr) (c : Char) (h : strchr s c = none) : c ∉ s := by
  induction s with
  | nil => simp
  | cons x xs ih =>
    by_cases hx : x = c
    · simp [strchr, hx] at h
    · simp only [strchr, hx, if_false, Option.map_eq_none'] at h
      simp only [List.mem_cons, not_or]
      exact ⟨fun e => hx e.symm, ih h⟩

theorem strchr_set_map (s : CStr) (i : Nat) (h : strchr s '/' = some i) :
    (s.set i '-').map slash_to_dash = s.map slash_to_dash := by
  induction s generalizing i with
  | nil => simp [strchr] at h
  | cons x xs ih =>
    by_cases hx : x = '/'
    · subst hx
      simp [strchr] at h
      subst h
      simp [slash_to_dash]
    · simp only [strchr, hx, if_false, Option.map_eq_some'] at h
      obtain ⟨k, hk, rfl⟩ := h
      simp [ih k hk]

theorem map_slash_to_dash_of_not_mem (s : CStr) (h : '/' ∉ s) :
    s.map slash_to_dash = s := by
  induction s with
  | nil => rfl
  | cons x xs ih =>
    simp only [List.mem_cons, not_or] at h
    have hx : x ≠ '/' := fun e => h.1 e.symm
    simp [slash_to_dash, hx, ih h.2]

/-- The loop of lines 89-91 terminates with every `/` turned into `-`. -/
theorem replace_slashes_eq_map (s : CStr) : replace_slashes s = s.map slash_to_dash := by
  induction s using replace_slashes.induct with
  | case1 s h =>
    rw [replace_slashes]
    split
    · exact (map_slash_to_dash_of_not_mem s (strchr_eq_none s '/' h)).symm
    · rename_i i hi; rw [h] at hi; cases hi
  | case2 s i h ih =>
    rw [replace_slashes]
    split
    · rename_i hn; rw [h] at hn; cases hn
    · rename_i j hj
      rw [h] at hj
      cases hj
      rw [ih, strchr_set_map s i h]

/-! ## The file layer and the two halves of Start -/

theorem eta_chan (chan : ast_channel) :
    ({ name := chan.name, lock := chan.lock, monitor := chan.monitor } : ast_channel) = chan := by
  cases chan; rfl

theorem lock_unlock (chan : ast_channel) : ast_mutex_unlock (ast_mutex_lock chan) = chan := by
  cases chan; simp [ast_mutex_lock, ast_mutex_unlock]

/-- The world after "delete the file at `p` if there is one". -/
theorem cleared_eq (w : World) (p : CStr) :
    (if ast_fileexists w p = true then ast_filedelete w p else w)
      = { w with files := fun q => if q = p then none else w.files q } := by
  split
  · rfl
  · rename_i h
    have hp : w.files p = none := by
      simpa [ast_fileexists] using h
    cases w with
    | mk seq files os ns md =>
      simp only [World.mk.injEq, true_and, and_true]
      funext q
      by_cases hq : q = p
      · subst hq; simpa using hp
      · simp [hq]

theorem open_files_read_fail (env : Env) (w : World) (chan : ast_channel)
    (m : ast_channel_monitor) (need_lock : Bool) (hr : env.read_open_ok = false) :
    open_files env w chan m need_lock
      = ⟨-1, { w with files := fun q => if q = m.read_filename then none else w.files q },
          ast_mutex_unlock chan⟩ := by
  unfold open_files
  simp only [cleared_eq, hr, ast_writefile, Bool.false_eq_true, if_false]

theorem open_files_write_fail (env : Env) (w : World) (chan : ast_channel)
    (m : ast_channel_monitor) (need_lock : Bool) (hr : env.read_open_ok = true)
    (hw : env.write_open_ok = false) :
    open_files env w chan m need_lock
      = ⟨-1,
          { w with
            files := fun q =>
              if q = m.write_filename then none
              else if q = m.read_filename then some w.next_stream else w.files q
            next_stream := w.next_stream + 1 },
          ast_mutex_unlock chan⟩ := by
  unfold open_files
  simp only [cleared_eq, hr, hw, ast_writefile, Bool.false_eq_true, if_false, if_true,
    ast_closestream, List.erase_cons_head]
  simp only [Ret.mk.injEq, World.mk.injEq, true_and, and_true]
  funext q
  split_ifs <;> rfl

theorem open_files_ok (env : Env) (w : World) (chan : ast_channel)
    (m : ast_channel_monitor) (need_lock : Bool) (hr : env.read_open_ok = true)
    (hw : env.write_open_ok = true) :
    open_files env w chan m need_lock
      = ⟨0,
          { w with
            files := fun q =>
              if q = m.write_filename then some (w.next_stream + 1)
              else if q = m.read_filename then some w.next_stream else w.files q
            open_streams := (w.next_stream + 1) :: w.next_stream :: w.open_streams
            next_stream := w.next_stream + 1 + 1 },
          if need_lock = true then
            ast_mutex_unlock { chan with
              monitor := some { m with
                read_stream := some w.next_stream, write_stream := some (w.next_stream + 1) } }
          else
            { chan with
              monitor := some { m with
                read_stream := some w.next_stream, write_stream := some (w.next_stream + 1) } }⟩ := by
  unfold open_files
  simp only [cleared_eq, hr, hw, ast_writefile, if_true]
  simp only [Ret.mk.injEq, World.mk.injEq, true_and, and_true]
  funext q
  split_ifs <;> rfl

/-- Start once the lock question is settled and the channel is unmonitored:
the directory is made, the names are determined and the files are opened. -/
theorem start_unmonitored (cfg : Config) (env : Env) (w : World) (chan : ast_channel)
    (format_spec fname_base : Option CStr) (need_lock : Bool)
    (hm : chan.monitor = none) (hl : need_lock = true → env.lock_ok = true) :
    ast_monitor_start cfg env w chan format_spec fname_base need_lock
      = open_files env
          (determine_names cfg (mkdir env w)
            (if need_lock = true then ast_mutex_lock chan else chan) format_spec fname_base).2
          (if need_lock = true then ast_mutex_lock chan else chan)
          (determine_names cfg (mkdir env w)
            (if need_lock = true then ast_mutex_lock chan else chan) format_spec fname_base).1
          need_lock := by
  have hm1 : (if need_lock = true then ast_mutex_lock chan else chan).monitor = none := by
    cases need_lock <;> simp [ast_mutex_lock, hm]
  have hno : ¬ (need_lock = true ∧ env.lock_ok = false) := by
    rintro ⟨h1, h2⟩
    rw [hl h1] at h2
    cases h2
  unfold ast_monitor_start
  rw [if_neg hno]
  simp only [hm1]

theorem start_lock_failed (cfg : Config) (env : Env) (w : World) (chan : ast_channel)
    (format_spec fname_base : Option CStr)
    (hl : env.lock_ok = false) :
    ast_monitor_start cfg env w chan format_spec fname_base true = ⟨-1, w, chan⟩ := by
  simp [ast_monitor_start, hl]

theorem start_monitored (cfg : Config) (env : Env) (w : World) (chan : ast_channel)
    (format_spec fname_base : Option CStr) (need_lock : Bool) (m : ast_channel_monitor)
    (hm : chan.monitor = some m) (hl : need_lock = true → env.lock_ok = true) :
    ast_monitor_start cfg env w chan format_spec fname_base need_lock = ⟨-1, w, chan⟩ := by
  cases need_lock with
  | false => simp [ast_monitor_start, hm]
  | true =>
    have hlk := hl rfl
    simp [ast_monitor_start, hlk, ast_mutex_lock, ast_mutex_unlock, hm]
    cases chan
    simp_all

theorem determine_names_world (cfg : Config) (w : World) (chan : ast_channel)
    (format_spec fname_base : Option CStr) :
    (determine_names cfg w chan format_spec fname_base).2
      = { w with seq := if has_text fname_base = true then w.seq
                        else (w.seq + 1) % 2 ^ cfg.ULONG_BITS } := by
  cases h : has_text fname_base <;> simp [determine_names, h]

theorem determine_names_locked (cfg : Config) (w : World) (chan : ast_channel)
    (format_spec fname_base : Option CStr) (need_lock : Bool) :
    determine_names cfg w (if need_lock = true then ast_mutex_lock chan else chan)
        format_spec fname_base
      = determine_names cfg w chan format_spec fname_base := by
  cases need_lock <;> simp [determine_names, ast_mutex_lock]

theorem mkdir_eq (env : Env) (w : World) :
    mkdir env w = { w with monitor_dir := env.mkdir_ok || w.monitor_dir } := by
  unfold mkdir
  cases env.mkdir_ok <;> simp


/-- A Start that returns 0 has attached a record whose two streams are
distinct and open. -/
theorem start_zero_attached (cfg : Config) (env : Env) (w : World) (chan : ast_channel)
    (format_spec fname_base : Option CStr) (need_lock : Bool)
    (h0 : (ast_monitor_start cfg env w chan format_spec fname_base need_lock).res = 0) :
    ∃ m rs ws,
      (ast_monitor_start cfg env w chan format_spec fname_base need_lock).chan.monitor
        = some m ∧
      m.read_stream = some rs ∧ m.write_stream = some ws ∧ rs ≠ ws ∧
      rs ∈ (ast_monitor_start cfg env w chan format_spec fname_base need_lock).world.open_streams ∧
      ws ∈ (ast_monitor_start cfg env w chan format_spec fname_base need_lock).world.open_streams := by
  by_cases hl : need_lock = true → env.lock_ok = true
  · cases hm : chan.monitor with
    | some m =>
      rw [start_monitored cfg env w chan format_spec fname_base need_lock m hm hl] at h0
      simp at h0
    | none =>
      rw [start_unmonitored cfg env w chan format_spec fname_base need_lock hm hl] at h0 ⊢
      cases hr : env.read_open_ok with
      | false =>
        rw [open_files_read_fail _ _ _ _ _ hr] at h0
        simp at h0
      | true =>
        cases hw : env.write_open_ok with
        | false =>
          rw [open_files_write_fail _ _ _ _ _ hr hw] at h0
          simp at h0
        | true =>
          rw [open_files_ok _ _ _ _ _ hr hw]
          cases need_lock <;> simp [ast_mutex_unlock]
  · have hnl : need_lock = true := by
      by_contra hc
      exact hl (fun h => absurd h hc)
    have hlk : env.lock_ok = false := by
      cases hv : env.lock_ok with
      | false => rfl
      | true => exact absurd (fun _ => hv) hl
    subst hnl
    rw [start_lock_failed cfg env w chan format_spec fname_base hlk] at h0
    simp at h0

/-! ## Start on a monitored channel -/

/-- C1: on a channel that already has a monitor attached, with the lock
acquirable, `ast_monitor_start` returns -1 and leaves the channel (its
attached record and its lock) and the whole world (counter, files, streams,
directory) exactly as they were.  Consequently, when a first Start has
returned 0, the channel has a record attached, and a second Start returns -1
and leaves that record, and everything else, untouched. -/
theorem start_monitored_no_effect (cfg : Config) (env1 env2 : Env) (w : World)
    (chan : ast_channel) (f1 b1 f2 b2 : Option CStr) (nl1 nl2 : Bool)
    (hl : nl2 = true → env2.lock_ok = true) :
    (∀ m, chan.monitor = some m →
      ast_monitor_start cfg env2 w chan f2 b2 nl2 = ⟨-1, w, chan⟩) ∧
    ((ast_monitor_start cfg env1 w chan f1 b1 nl1).res = 0 →
      (∃ m, (ast_monitor_start cfg env1 w chan f1 b1 nl1).chan.monitor = some m) ∧
      ast_monitor_start cfg env2 (ast_monitor_start cfg env1 w chan f1 b1 nl1).world
          (ast_monitor_start cfg env1 w chan f1 b1 nl1).chan f2 b2 nl2
        = ⟨-1, (ast_monitor_start cfg env1 w chan f1 b1 nl1).world,
            (ast_monitor_start cfg env1 w chan f1 b1 nl1).chan⟩) := by
  refine ⟨fun m hm => start_monitored cfg env2 w chan f2 b2 nl2 m hm hl, fun h0 => ?_⟩
  obtain ⟨m, _, _, hm, _⟩ := start_zero_attached cfg env1 w chan f1 b1 nl1 h0
  exact ⟨⟨m, hm⟩, start_monitored cfg env2 _ _ f2 b2 nl2 m hm hl⟩

theorem start_monitored_no_effect_witness :
    ast_monitor_start cfg64 env_ok world_auto (chan_with mon_auto) none (some ['x']) true
      = ⟨-1, world_auto, chan_with mon_auto⟩ ∧
    ast_monitor_start cfg64 env_ok
        (ast_monitor_start cfg64 env_ok world7 chanFoo none none true).world
        (ast_monitor_start cfg64 env_ok world7 chanFoo none none true).chan
        none (some ['x']) true
      = ⟨-1, (ast_monitor_start cfg64 env_ok world7 chanFoo none none true).world,
          (ast_monitor_start cfg64 env_ok world7 chanFoo none none true).chan⟩ :=
  ⟨(start_monitored_no_effect cfg64 env_ok env_ok world_auto (chan_with mon_auto) none none
      none (some ['x']) true true (fun _ => rfl)).1 mon_auto rfl,
   ((start_monitored_no_effect cfg64 env_ok env_ok world7 chanFoo none none none (some ['x'])
      true true (fun _ => rfl)).2 (by decide)).2⟩

/-! ## ChangeName on an unmonitored channel -/

/-- C2 (as amended): on a channel with no monitor attached, with a non-empty
`fname_base` and the lock acquirable, `ast_monitor_change_fname` returns 0 and
leaves the channel and the world exactly as they were; the missing monitor is
only logged. -/
theorem change_fname_unmonitored_returns_zero (cfg : Config) (env : Env) (w : World)
    (chan : ast_channel) (fname_base : Option CStr) (need_lock : Bool)
    (hm : chan.monitor = none) (hb : has_text fname_base = true)
    (hl : need_lock = true → env.lock_ok = true) :
    ast_monitor_change_fname cfg env w chan fname_base need_lock = ⟨0, w, chan⟩ := by
  cases need_lock with
  | false => simp [ast_monitor_change_fname, hb, hm]
  | true =>
    have hlk := hl rfl
    simp [ast_monitor_change_fname, hb, hlk, ast_mutex_lock, ast_mutex_unlock, hm]
    cases chan
    simp_all

theorem change_fname_unmonitored_returns_zero_witness :
    ast_monitor_change_fname cfg64 env_ok world7 chanFoo (some ['x']) true
      = ⟨0, world7, chanFoo⟩ :=
  change_fname_unmonitored_returns_zero cfg64 env_ok world7 chanFoo (some ['x']) true
    rfl rfl (fun _ => rfl)

/-- C2, the claim as stated fails: on the unmonitored channel `Foo/1`,
ChangeName to `x` does not return a failure status. -/
theorem change_fname_unmonitored_not_failure :
    ¬ ((ast_monitor_change_fname cfg64 env_ok world7 chanFoo (some ['x']) true).res ≠ 0 ∧
       (ast_monitor_change_fname cfg64 env_ok world7 chanFoo (some ['x']) true).chan.monitor
         = none) := by
  decide

/-! ## Start is all-or-nothing -/

/-- C3: on an unmonitored channel, when the read open or the write open
fails, `ast_monitor_start` returns -1, no record is attached, and the streams
open afterwards are those open before (the read stream opened before a failed
write open has been closed).  And whatever the input, a result of 0 comes with
an attached record holding two distinct streams, both open. -/
theorem start_all_or_nothing (cfg : Config) (env : Env) (w : World) (chan : ast_channel)
    (format_spec fname_base : Option CStr) (need_lock : Bool) :
    (chan.monitor = none → (env.read_open_ok = false ∨ env.write_open_ok = false) →
      (ast_monitor_start cfg env w chan format_spec fname_base need_lock).res = -1 ∧
      (ast_monitor_start cfg env w chan format_spec fname_base need_lock).chan.monitor = none ∧
      (ast_monitor_start cfg env w chan format_spec fname_base need_lock).world.open_streams
        = w.open_streams) ∧
    ((ast_monitor_start cfg env w chan format_spec fname_base need_lock).res = 0 →
      ∃ m rs ws,
        (ast_monitor_start cfg env w chan format_spec fname_base need_lock).chan.monitor
          = some m ∧
        m.read_stream = some rs ∧ m.write_stream = some ws ∧ rs ≠ ws ∧
        rs ∈ (ast_monitor_start cfg env w chan format_spec fname_base need_lock).world.open_streams ∧
        ws ∈ (ast_monitor_start cfg env w chan format_spec fname_base need_lock).world.open_streams) := by
  refine ⟨fun hm hfail => ?_, start_zero_attached cfg env w chan format_spec fname_base need_lock⟩
  by_cases hl : need_lock = true → env.lock_ok = true
  · have hm1 : (if need_lock = true then ast_mutex_lock chan else chan).monitor = none := by
      cases need_lock <;> simp [ast_mutex_lock, hm]
    rw [start_unmonitored cfg env w chan format_spec fname_base need_lock hm hl]
    cases hr : env.read_open_ok with
    | false =>
      rw [open_files_read_fail _ _ _ _ _ hr]
      refine ⟨rfl, ?_, ?_⟩
      · simpa [ast_mutex_unlock] using hm1
      · simp [determine_names_world, mkdir_eq]
    | true =>
      have hw : env.write_open_ok = false := by
        rcases hfail with h | h
        · rw [hr] at h; cases h
        · exact h
      rw [open_files_write_fail _ _ _ _ _ hr hw]
      refine ⟨rfl, ?_, ?_⟩
      · simpa [ast_mutex_unlock] using hm1
      · simp [determine_names_world, mkdir_eq]
  · have hnl : need_lock = true := by
      by_contra hc
      exact hl (fun h => absurd h hc)
    have hlk : env.lock_ok = false := by
      cases hv : env.lock_ok with
      | false => rfl
      | true => exact absurd (fun _ => hv) hl
    subst hnl
    rw [start_lock_failed cfg env w chan format_spec fname_base hlk]
    exact ⟨rfl, hm, rfl⟩

theorem start_all_or_nothing_witness :
    ((ast_monitor_start cfg64 env_write_fails world7 chanFoo none none true).res = -1 ∧
      (ast_monitor_start cfg64 env_write_fails world7 chanFoo none none true).chan.monitor
        = none ∧
      (ast_monitor_start cfg64 env_write_fails world7 chanFoo none none
        true).world.open_streams = world7.open_streams) ∧
    (∃ m rs ws,
      (ast_monitor_start cfg64 env_ok world7 chanFoo none none true).chan.monitor = some m ∧
      m.read_stream = some rs ∧ m.write_stream = some ws ∧ rs ≠ ws ∧
      rs ∈ (ast_monitor_start cfg64 env_ok world7 chanFoo none none true).world.open_streams ∧
      ws ∈ (ast_monitor_start cfg64 env_ok world7 chanFoo none none true).world.open_streams) :=
  ⟨(start_all_or_nothing cfg64 env_write_fails world7 chanFoo none none true).1
      rfl (Or.inr rfl),
   (start_all_or_nothing cfg64 env_ok world7 chanFoo none none true).2 (by decide)⟩

/-! ## Lock balance -/

/-- C4, the code at the failing inputs: the caller holds the channel lock
(one acquisition outstanding) and calls Start with `need_lock` false on an
unmonitored channel.  When the read open fails, and likewise when the write
open fails, Start returns -1 and the caller's acquisition has been given back:
no acquisition is outstanding any more. -/
theorem start_open_failure_drops_callers_lock :
    chan_held.lock = 1 ∧ chan_held.monitor = none ∧
    ((ast_monitor_start cfg64 env_read_fails world7 chan_held none none false).res = -1 ∧
      (ast_monitor_start cfg64 env_read_fails world7 chan_held none none false).chan.lock = 0) ∧
    ((ast_monitor_start cfg64 env_write_fails world7 chan_held none none false).res = -1 ∧
      (ast_monitor_start cfg64 env_write_fails world7 chan_held none none false).chan.lock
        = 0) := by
  decide

/-- Every path of Stop and of ChangeName, and every path of Start other than
the two file-open failure returns, leaves as many acquisitions of the channel
lock outstanding as it found; the two file-open failure returns of Start give
one back whatever `need_lock` says. -/
theorem lock_balance (cfg : Config) (env : Env) (w : World) (chan : ast_channel)
    (format_spec fname_base : Option CStr) (need_lock : Bool) :
    (ast_monitor_stop cfg env w chan need_lock).chan.lock = chan.lock ∧
    (ast_monitor_change_fname cfg env w chan fname_base need_lock).chan.lock = chan.lock ∧
    ((ast_monitor_start cfg env w chan format_spec fname_base need_lock).chan.lock
      = if (need_lock = true → env.lock_ok = true) ∧ chan.monitor = none ∧
            (env.read_open_ok = false ∨ env.write_open_ok = false)
        then (if need_lock = true then chan.lock else chan.lock - 1)
        else chan.lock) := by
  refine ⟨?_, ?_, ?_⟩
  · unfold ast_monitor_stop
    split
    · rfl
    · cases need_lock <;> simp only [ast_mutex_lock, ast_mutex_unlock] <;> split <;> simp
  · unfold ast_monitor_change_fname
    split
    · rfl
    · split
      · rfl
      · cases need_lock <;> simp only [ast_mutex_lock, ast_mutex_unlock] <;> split <;> simp
  · by_cases hl : need_lock = true → env.lock_ok = true
    · cases hm : chan.monitor with
      | some m =>
        rw [start_monitored cfg env w chan format_spec fname_base need_lock m hm hl]
        simp
      | none =>
        rw [start_unmonitored cfg env w chan format_spec fname_base need_lock hm hl]
        cases hr : env.read_open_ok with
        | false =>
          rw [open_files_read_fail _ _ _ _ _ hr]
          cases need_lock <;> simp_all [ast_mutex_lock, ast_mutex_unlock]
        | true =>
          cases hw : env.write_open_ok with
          | false =>
            rw [open_files_write_fail _ _ _ _ _ hr hw]
            cases need_lock <;> simp_all [ast_mutex_lock, ast_mutex_unlock]
          | true =>
            rw [open_files_ok _ _ _ _ _ hr hw]
            cases need_lock <;> simp_all [ast_mutex_lock, ast_mutex_unlock]
    · have hnl : need_lock = true := by
        by_contra hc
        exact hl (fun h => absurd h hc)
      have hlk : env.lock_ok = false := by
        cases hv : env.lock_ok with
        | false => rfl
        | true => exact absurd (fun _ => hv) hl
      subst hnl
      rw [start_lock_failed cfg env w chan format_spec fname_base hlk]
      simp [hlk]

/-! ## Stop -/

theorem stop_monitored (cfg : Config) (env : Env) (w : World) (chan : ast_channel)
    (need_lock : Bool) (m : ast_channel_monitor)
    (hm : chan.monitor = some m) (hl : need_lock = true → env.lock_ok = true) :
    ast_monitor_stop cfg env w chan need_lock
      = ⟨0, stop_attached cfg w m, { chan with monitor := none }⟩ := by
  cases need_lock with
  | false => simp [ast_monitor_stop, hm]
  | true =>
    have hlk := hl rfl
    simp [ast_monitor_stop, hlk, ast_mutex_lock, ast_mutex_unlock, hm]

/-- One rename block, when the working name and the destination differ. -/
theorem rename_working_eq (w : World) (working dest : CStr) (h : working ≠ dest) :
    rename_working w working dest
      = { w with files := fun p =>
            if (w.files working).isSome = true then
              (if p = dest then w.files working
               else if p = working then none else w.files p)
            else w.files p } := by
  unfold rename_working
  cases hR : w.files working with
  | none =>
    simp [ast_fileexists, hR]
  | some a =>
    simp only [ast_fileexists, hR, Option.isSome_some, if_true]
    have hc := cleared_eq w dest
    simp only [ast_fileexists] at hc
    rw [hc]
    simp only [ast_filerename, h, if_false, hR]
    simp only [World.mk.injEq, true_and, and_true]
    funext p
    split_ifs <;> rfl

/-- One rename block, when the working name is the destination: the file is
deleted and nothing is renamed onto the name. -/
theorem rename_working_self (w : World) (working : CStr) :
    rename_working w working working
      = { w with files := fun p => if p = working then none else w.files p } := by
  unfold rename_working
  cases hR : w.files working with
  | none =>
    simp only [ast_fileexists, hR, Option.isSome_none, Bool.false_eq_true, if_false]
    cases w with
    | mk seq files os ns md =>
      simp only [World.mk.injEq, true_and, and_true]
      funext p
      by_cases hp : p = working
      · subst hp; simpa using hR
      · simp [hp]
  | some a =>
    simp [ast_fileexists, hR, ast_filedelete, ast_filerename]

theorem stop_attached_files (cfg : Config) (w : World) (m : ast_channel_monitor)
    (hb : m.filename_base ≠ [])
    (hrd : m.read_filename ≠ final_in cfg m) (hwd : m.write_filename ≠ final_out cfg m) :
    (stop_attached cfg w m).files
      = fun p =>
          if ((if (w.files m.read_filename).isSome = true then
                (if m.write_filename = final_in cfg m then w.files m.read_filename
                 else if m.write_filename = m.read_filename then none
                 else w.files m.write_filename)
               else w.files m.write_filename)).isSome = true then
            (if p = final_out cfg m then
               (if (w.files m.read_filename).isSome = true then
                 (if m.write_filename = final_in cfg m then w.files m.read_filename
                  else if m.write_filename = m.read_filename then none
                  else w.files m.write_filename)
                else w.files m.write_filename)
             else if p = m.write_filename then none
             else if (w.files m.read_filename).isSome = true then
               (if p = final_in cfg m then w.files m.read_filename
                else if p = m.read_filename then none else w.files p)
             else w.files p)
          else if (w.files m.read_filename).isSome = true then
            (if p = final_in cfg m then w.files m.read_filename
             else if p = m.read_filename then none else w.files p)
          else w.files p := by
  have hb1 : has_text (some m.filename_base) = true := by
    cases hfb : m.filename_base with
    | nil => exact absurd hfb hb
    | cons c cs => simp [has_text]
  unfold stop_attached
  simp only [hb1, if_true]
  rw [rename_working_eq _ _ _ hwd, rename_working_eq _ _ _ hrd]
  cases m.read_stream <;> cases m.write_stream <;> simp only [ast_closestream]

/-- The files after Stop, when the two working names and the two destination
names are pairwise different: each working file that exists is at its
destination, the working names are vacant, and every other name is
untouched. -/
theorem stop_attached_renames (cfg : Config) (w : World) (m : ast_channel_monitor)
    (hb : m.filename_base ≠ [])
    (hnd : [m.read_filename, m.write_filename, final_in cfg m, final_out cfg m].Nodup) :
    (stop_attached cfg w m).files (final_in cfg m)
      = (if (w.files m.read_filename).isSome = true then w.files m.read_filename
         else w.files (final_in cfg m)) ∧
    (stop_attached cfg w m).files (final_out cfg m)
      = (if (w.files m.write_filename).isSome = true then w.files m.write_filename
         else w.files (final_out cfg m)) ∧
    (stop_attached cfg w m).files m.read_filename = none ∧
    (stop_attached cfg w m).files m.write_filename = none ∧
    (∀ p, p ∉ [m.read_filename, m.write_filename, final_in cfg m, final_out cfg m] →
      (stop_attached cfg w m).files p = w.files p) := by
  simp only [List.nodup_cons, List.mem_cons, List.mem_singleton, not_or, List.not_mem_nil,
    not_false_eq_true, List.nodup_nil, and_true] at hnd
  obtain ⟨⟨hRW, hRI, hRO⟩, ⟨hWI, hWO⟩, hInOut⟩ := hnd
  have hWR : m.write_filename ≠ m.read_filename := fun e => hRW e.symm
  have hIR : final_in cfg m ≠ m.read_filename := fun e => hRI e.symm
  have hIW : final_in cfg m ≠ m.write_filename := fun e => hWI e.symm
  have hOR : final_out cfg m ≠ m.read_filename := fun e => hRO e.symm
  have hOW : final_out cfg m ≠ m.write_filename := fun e => hWO e.symm
  have hOutIn : final_out cfg m ≠ final_in cfg m := fun e => hInOut e.symm
  rw [stop_attached_files cfg w m hb hRI hWO]
  simp only [hWI, hWR, if_false]
  refine ⟨?_, ?_, ?_, ?_, ?_⟩
  · simp only [hInOut, hIW, if_false, if_true]
    cases hR : w.files m.read_filename <;> cases hW : w.files m.write_filename <;> simp
  · simp only [if_true]
    cases hR : w.files m.read_filename <;> cases hW : w.files m.write_filename <;>
      simp [hOR, hRI, hRO, hOW, hInOut, hWO, hWI, hW, hR, hOutIn]
  · cases hR : w.files m.read_filename <;> cases hW : w.files m.write_filename <;>
      simp [hRO, hRW, hRI, hR]
  · cases hR : w.files m.read_filename <;> cases hW : w.files m.write_filename <;>
      simp [hWO, hWI, hWR, hW]
  · intro p hp
    simp only [List.mem_cons, List.mem_singleton, not_or, List.not_mem_nil,
      not_false_eq_true, and_true] at hp
    obtain ⟨h1, h2, h3, h4⟩ := hp
    cases hR : w.files m.read_filename <;> cases hW : w.files m.write_filename <;>
      simp [h1, h2, h3, h4]

theorem stop_attached_no_base (cfg : Config) (w : World) (m : ast_channel_monitor)
    (hb : m.filename_base = []) :
    (stop_attached cfg w m).files = w.files ∧ (stop_attached cfg w m).seq = w.seq := by
  unfold stop_attached
  simp only [hb, has_text, List.length_nil, bne_self_eq_false, Bool.false_eq_true, if_false]
  cases m.read_stream <;> cases m.write_stream <;> simp [ast_closestream]

theorem final_names_of_fits (cfg : Config) (m : ast_channel_monitor)
    (hf : fits cfg (m.filename_base ++ ['-', 'o', 'u', 't'])) :
    final_in cfg m = m.filename_base ++ ['-', 'i', 'n'] ∧
    final_out cfg m = m.filename_base ++ ['-', 'o', 'u', 't'] := by
  unfold final_in final_out
  refine ⟨snprintf_of_fits cfg _ (fits_of_le cfg _ _ hf ?_), snprintf_of_fits cfg _ hf⟩
  simp

theorem base_ne_nil (dir y : CStr) : dir ++ '/' :: y ≠ [] := by
  simp

/-- Stop with untruncated destinations, all four names different and both
working files present: each recording ends at its destination. -/
theorem stop_moves_both (cfg : Config) (env : Env) (w : World) (chan : ast_channel)
    (need_lock : Bool) (m : ast_channel_monitor) (a b : Nat)
    (hm : chan.monitor = some m) (hb : m.filename_base ≠ [])
    (hl : need_lock = true → env.lock_ok = true)
    (hfit : fits cfg (m.filename_base ++ ['-', 'o', 'u', 't']))
    (hnd : [m.read_filename, m.write_filename, m.filename_base ++ ['-', 'i', 'n'],
      m.filename_base ++ ['-', 'o', 'u', 't']].Nodup)
    (ha : w.files m.read_filename = some a) (hb' : w.files m.write_filename = some b) :
    (ast_monitor_stop cfg env w chan need_lock).res = 0 ∧
    (ast_monitor_stop cfg env w chan need_lock).chan.monitor = none ∧
    (ast_monitor_stop cfg env w chan need_lock).world.files
      (m.filename_base ++ ['-', 'i', 'n']) = some a ∧
    (ast_monitor_stop cfg env w chan need_lock).world.files
      (m.filename_base ++ ['-', 'o', 'u', 't']) = some b ∧
    (ast_monitor_stop cfg env w chan need_lock).world.files m.read_filename = none ∧
    (ast_monitor_stop cfg env w chan need_lock).world.files m.write_filename = none := by
  obtain ⟨hI, hO⟩ := final_names_of_fits cfg m hfit
  rw [← hI, ← hO] at hnd
  obtain ⟨h1, h2, h3, h4, _⟩ := stop_attached_renames cfg w m hb hnd
  rw [stop_monitored cfg env w chan need_lock m hm hl]
  rw [← hI, ← hO]
  refine ⟨rfl, rfl, ?_, ?_, h3, h4⟩
  · simp [h1, ha]
  · simp [h2, hb']

/-! ## Stop's deferred rename -/

/-- C8 (as amended): for a monitored channel whose `filename_base` is not
empty, with the lock acquirable, where the destination names are what
`snprintf` stores of `base-in` and `base-out` (these very texts when they fit
in `FILENAME_MAX`) and the two working names and the two destination names
are pairwise different: `ast_monitor_stop` returns 0, the channel ends with no
record attached, and the two streams are handled independently.  A read
working file that exists ends at the `-in` destination, replacing whatever was
there, and its working name is vacant; when it does not exist the `-in`
destination is untouched.  Likewise for the write working file and the `-out`
destination.  No other file is touched. -/
theorem stop_deferred_rename (cfg : Config) (env : Env) (w : World) (chan : ast_channel)
    (need_lock : Bool) (m : ast_channel_monitor)
    (hm : chan.monitor = some m) (hb : m.filename_base ≠ [])
    (hl : need_lock = true → env.lock_ok = true)
    (hnd : [m.read_filename, m.write_filename, final_in cfg m, final_out cfg m].Nodup) :
    (ast_monitor_stop cfg env w chan need_lock).res = 0 ∧
    (ast_monitor_stop cfg env w chan need_lock).chan.monitor = none ∧
    (fits cfg (m.filename_base ++ ['-', 'o', 'u', 't']) →
      final_in cfg m = m.filename_base ++ ['-', 'i', 'n'] ∧
      final_out cfg m = m.filename_base ++ ['-', 'o', 'u', 't']) ∧
    (∀ a, w.files m.read_filename = some a →
      (ast_monitor_stop cfg env w chan need_lock).world.files (final_in cfg m) = some a ∧
      (ast_monitor_stop cfg env w chan need_lock).world.files m.read_filename = none) ∧
    (w.files m.read_filename = none →
      (ast_monitor_stop cfg env w chan need_lock).world.files (final_in cfg m)
        = w.files (final_in cfg m)) ∧
    (∀ b, w.files m.write_filename = some b →
      (ast_monitor_stop cfg env w chan need_lock).world.files (final_out cfg m) = some b ∧
      (ast_monitor_stop cfg env w chan need_lock).world.files m.write_filename = none) ∧
    (w.files m.write_filename = none →
      (ast_monitor_stop cfg env w chan need_lock).world.files (final_out cfg m)
        = w.files (final_out cfg m)) ∧
    (∀ p, p ∉ [m.read_filename, m.write_filename, final_in cfg m, final_out cfg m] →
      (ast_monitor_stop cfg env w chan need_lock).world.files p = w.files p) := by
  rw [stop_monitored cfg env w chan need_lock m hm hl]
  obtain ⟨hI, hO, hR, hW, hrest⟩ := stop_attached_renames cfg w m hb hnd
  refine ⟨rfl, rfl, final_names_of_fits cfg m, ?_, ?_, ?_, ?_, hrest⟩
  · intro a ha
    exact ⟨by simp [hI, ha], hR⟩
  · intro hn
    simp [hI, hn]
  · intro b hb'
    exact ⟨by simp [hO, hb'], hW⟩
  · intro hn
    simp [hO, hn]

theorem stop_deferred_rename_witness :
    (ast_monitor_stop cfg64 env_ok world_auto (chan_with mon_auto) true).res = 0 ∧
    (ast_monitor_stop cfg64 env_ok world_auto (chan_with mon_auto)
      true).chan.monitor = none ∧
    final_in cfg64 mon_auto = dir64 ++ "/Foo-1-in".toList ∧
    final_out cfg64 mon_auto = dir64 ++ "/Foo-1-out".toList ∧
    world_auto.files (final_in cfg64 mon_auto) = some 99 ∧
    (ast_monitor_stop cfg64 env_ok world_auto (chan_with mon_auto)
      true).world.files (final_in cfg64 mon_auto) = some 0 ∧
    (ast_monitor_stop cfg64 env_ok world_auto (chan_with mon_auto)
      true).world.files (final_out cfg64 mon_auto) = some 1 ∧
    (ast_monitor_stop cfg64 env_ok world_x (chan_with mon_auto)
      true).world.files (final_in cfg64 mon_auto) = world_x.files (final_in cfg64 mon_auto) ∧
    (ast_monitor_stop cfg64 env_ok world_x (chan_with mon_auto)
      true).world.files (final_out cfg64 mon_auto)
        = world_x.files (final_out cfg64 mon_auto) := by
  have h := stop_deferred_rename cfg64 env_ok world_auto (chan_with mon_auto) true
    mon_auto rfl (by decide) (fun _ => rfl) (by decide)
  have hx := stop_deferred_rename cfg64 env_ok world_x (chan_with mon_auto) true
    mon_auto rfl (by decide) (fun _ => rfl) (by decide)
  exact ⟨h.1, h.2.1, (h.2.2.1 (by decide)).1.trans (by decide),
    (h.2.2.1 (by decide)).2.trans (by decide), by decide,
    (h.2.2.2.1 0 (by decide)).1, (h.2.2.2.2.2.1 1 (by decide)).1,
    hx.2.2.2.2.1 (by decide), hx.2.2.2.2.2.2.1 (by decide)⟩

theorem long_name_length : long_name.length = 4095 := by
  unfold long_name
  exact List.length_replicate 4095 'a'

/-- C8, the claim as stated fails, in two ways.  When the destination is the
working name (working files `x-in`, `x-out`, base `x`), the read working file
exists and yet nothing is at `x-in` after Stop: the file was deleted as the
"pre-existing destination" and the rename found nothing to move.  When the
base fills its buffer, the destination is not `base-in`: nothing is stored
there after Stop although the read working file existed. -/
theorem stop_deferred_rename_fails :
    (world_x.files mon_x.read_filename = some 0 ∧
      mon_x.filename_base ≠ [] ∧
      (ast_monitor_stop cfg64 env_ok world_x (chan_with mon_x) true).world.files
        (mon_x.filename_base ++ ['-', 'i', 'n']) = none) ∧
    (world_long.files mon_long.read_filename = some 0 ∧
      mon_long.filename_base ≠ [] ∧
      (ast_monitor_stop cfg64 env_ok world_long (chan_with mon_long)
        true).world.files (mon_long.filename_base ++ ['-', 'i', 'n']) = none) := by
  refine ⟨⟨by decide, by decide, by decide⟩, by decide, ?_, ?_⟩
  · intro h
    have hl := congrArg List.length h
    simp [mon_long, long_name_length] at hl
  · have hI : final_in cfg64 mon_long = long_name := by
      simp only [final_in, snprintf, mon_long, cfg64]
      exact List.take_left' long_name_length
    have hO : final_out cfg64 mon_long = long_name := by
      simp only [final_out, snprintf, mon_long, cfg64]
      exact List.take_left' long_name_length
    have hb : mon_long.filename_base ≠ [] := by
      intro h
      have hl := congrArg List.length h
      simp [mon_long, long_name_length] at hl
    have hr : ['r'] ≠ long_name := by
      intro h
      have hl := congrArg List.length h
      simp [long_name_length] at hl
    have hw : ['w'] ≠ long_name := by
      intro h
      have hl := congrArg List.length h
      simp [long_name_length] at hl
    have hp : long_name ++ ['-', 'i', 'n'] ≠ long_name := by
      intro h
      have hl := congrArg List.length h
      simp at hl
    have hpr : long_name ++ ['-', 'i', 'n'] ≠ ['r'] := by
      intro h
      have hl := congrArg List.length h
      simp [long_name_length] at hl
    have hpw : long_name ++ ['-', 'i', 'n'] ≠ ['w'] := by
      intro h
      have hl := congrArg List.length h
      simp [long_name_length] at hl
    rw [stop_monitored cfg64 env_ok world_long _ true mon_long rfl (fun _ => rfl)]
    show (stop_attached cfg64 world_long mon_long).files (long_name ++ ['-', 'i', 'n']) = none
    rw [stop_attached_files cfg64 world_long mon_long hb (by rw [hI]; exact hr)
      (by rw [hO]; exact hw)]
    simp only [hI, hO]
    simp [mon_long, world_long, hp, hpr, hpw, hw, hr]

/-! ## The printed counter and the shape of the names -/

theorem digitChar_isDigit (k : Nat) (h : k < 10) : (Nat.digitChar k).isDigit = true := by
  interval_cases k <;> decide

theorem toDigitsCore_isDigit (fuel : Nat) :
    ∀ (n : Nat) (ds : List Char), (∀ c ∈ ds, c.isDigit = true) →
      ∀ c ∈ Nat.toDigitsCore 10 fuel n ds, c.isDigit = true := by
  induction fuel with
  | zero => intro n ds hds c hc; exact hds c (by simpa [Nat.toDigitsCore] using hc)
  | succ f ih =>
    intro n ds hds c hc
    have hd : ∀ c ∈ Nat.digitChar (n % 10) :: ds, c.isDigit = true := by
      intro c hc
      rcases List.mem_cons.mp hc with h | h
      · rw [h]; exact digitChar_isDigit _ (Nat.mod_lt _ (by decide))
      · exact hds c h
    simp only [Nat.toDigitsCore] at hc
    split at hc
    · exact hd c hc
    · exact ih _ _ hd c hc

theorem toDigitsCore_ne_nil (fuel : Nat) :
    ∀ (n : Nat) (ds : List Char), ds ≠ [] → Nat.toDigitsCore 10 fuel n ds ≠ [] := by
  induction fuel with
  | zero => intro n ds hds; simpa [Nat.toDigitsCore] using hds
  | succ f ih =>
    intro n ds _
    simp only [Nat.toDigitsCore]
    split
    · simp
    · exact ih _ _ (by simp)

theorem toDigits_ne_nil (n : Nat) : Nat.toDigits 10 n ≠ [] := by
  unfold Nat.toDigits
  simp only [Nat.toDigitsCore]
  split
  · simp
  · exact toDigitsCore_ne_nil _ _ _ (by simp)

/-- The printed counter ends in a decimal digit. -/
theorem fmt_ld_last (cfg : Config) (n : Nat) :
    ∃ (r0 : CStr) (d : Char), fmt_ld cfg n = r0 ++ [d] ∧ d.isDigit = true := by
  have key : ∀ k : Nat, ∃ (r0 : CStr) (d : Char),
      Nat.toDigits 10 k = r0 ++ [d] ∧ d.isDigit = true := by
    intro k
    refine ⟨(Nat.toDigits 10 k).dropLast, (Nat.toDigits 10 k).getLast (toDigits_ne_nil k),
      (List.dropLast_append_getLast (toDigits_ne_nil k)).symm, ?_⟩
    exact toDigitsCore_isDigit _ _ _ (by simp) _ (List.getLast_mem (toDigits_ne_nil k))
  unfold fmt_ld
  split
  · exact key n
  · obtain ⟨r0, d, h, hd⟩ := key (2 ^ cfg.ULONG_BITS - n)
    exact ⟨'-' :: r0, d, by rw [h]; rfl, hd⟩

/-- Below `2 ^ (ULONG_BITS - 1)` the printed counter is the decimal numeral. -/
theorem fmt_ld_small (cfg : Config) (n : Nat) (h : n < 2 ^ (cfg.ULONG_BITS - 1)) :
    fmt_ld cfg n = Nat.toDigits 10 n := by
  simp [fmt_ld, h]

theorem snoc_ne_snoc (a b : CStr) (c d : Char) (h : c ≠ d) : a ++ [c] ≠ b ++ [d] := by
  intro e
  have := List.append_inj_right' e rfl
  simp at this
  exact h this

/-- The two automatic working names and the two destination names of any base
are pairwise different. -/
theorem auto_names_nodup (dir base r : CStr)
    (hr : ∃ (r0 : CStr) (d : Char), r = r0 ++ [d] ∧ d.isDigit = true) :
    [dir ++ ['/', 'a', 'u', 'd', 'i', 'o', '-', 'i', 'n', '-'] ++ r,
     dir ++ ['/', 'a', 'u', 'd', 'i', 'o', '-', 'o', 'u', 't', '-'] ++ r,
     base ++ ['-', 'i', 'n'], base ++ ['-', 'o', 'u', 't']].Nodup := by
  obtain ⟨r0, d, rfl, hd⟩ := hr
  have hdn : d ≠ 'n' := by
    intro e; rw [e] at hd; exact absurd hd (by decide)
  have hdt : d ≠ 't' := by
    intro e; rw [e] at hd; exact absurd hd (by decide)
  have e1 : ∀ x : CStr, x ++ (r0 ++ [d]) = (x ++ r0) ++ [d] := fun x => by simp
  have e2 : base ++ ['-', 'i', 'n'] = (base ++ ['-', 'i']) ++ ['n'] := by simp
  have e3 : base ++ ['-', 'o', 'u', 't'] = (base ++ ['-', 'o', 'u']) ++ ['t'] := by simp
  simp only [List.nodup_cons, List.mem_cons, List.mem_singleton, not_or, List.not_mem_nil,
    not_false_eq_true, List.nodup_nil, and_true]
  refine ⟨⟨?_, ?_, ?_⟩, ⟨?_, ?_⟩, ?_⟩
  · simp
  · rw [e1, e2]; exact snoc_ne_snoc _ _ _ _ hdn
  · rw [e1, e3]; exact snoc_ne_snoc _ _ _ _ hdt
  · rw [e1, e2]; exact snoc_ne_snoc _ _ _ _ hdn
  · rw [e1, e3]; exact snoc_ne_snoc _ _ _ _ hdt
  · rw [e2, e3]; exact snoc_ne_snoc _ _ _ _ (by decide)

/-! ## A successful Start -/

/-- The record built by lines 72-104 when `fname_base` has text. -/
theorem determine_names_custom (cfg : Config) (w : World) (chan : ast_channel)
    (format_spec fname_base : Option CStr) (hb : has_text fname_base = true) :
    (determine_names cfg w chan format_spec fname_base).1
      = { read_stream := none
          write_stream := none
          read_filename :=
            snprintf cfg.FILENAME_MAX
              (AST_MONITOR_DIR cfg ++ '/' :: fname_base.getD [] ++ ['-', 'i', 'n'])
          write_filename :=
            snprintf cfg.FILENAME_MAX
              (AST_MONITOR_DIR cfg ++ '/' :: fname_base.getD [] ++ ['-', 'o', 'u', 't'])
          filename_base := []
          format := if has_text format_spec = true then format_spec.getD []
                    else ['w', 'a', 'v'] } := by
  simp [determine_names, hb]

/-- The record built by lines 72-104 when `fname_base` is NULL or empty. -/
theorem determine_names_auto (cfg : Config) (w : World) (chan : ast_channel)
    (format_spec fname_base : Option CStr) (hb : has_text fname_base = false) :
    (determine_names cfg w chan format_spec fname_base).1
      = { read_stream := none
          write_stream := none
          read_filename :=
            snprintf cfg.FILENAME_MAX
              (AST_MONITOR_DIR cfg ++ ['/', 'a', 'u', 'd', 'i', 'o', '-', 'i', 'n', '-']
                ++ fmt_ld cfg w.seq)
          write_filename :=
            snprintf cfg.FILENAME_MAX
              (AST_MONITOR_DIR cfg ++ ['/', 'a', 'u', 'd', 'i', 'o', '-', 'o', 'u', 't', '-']
                ++ fmt_ld cfg w.seq)
          filename_base :=
            snprintf cfg.FILENAME_MAX (AST_MONITOR_DIR cfg ++ '/' :: replace_slashes chan.name)
          format := if has_text format_spec = true then format_spec.getD []
                    else ['w', 'a', 'v'] } := by
  simp [determine_names, hb]

/-- Start on an unmonitored channel with the lock acquirable and both opens
succeeding: the result is 0, the built record is attached with the two new
handles, the lock is as before, and the two working names hold the two new
files. -/
theorem start_ok (cfg : Config) (env : Env) (w : World) (chan : ast_channel)
    (format_spec fname_base : Option CStr) (need_lock : Bool)
    (hm : chan.monitor = none) (hl : need_lock = true → env.lock_ok = true)
    (hr : env.read_open_ok = true) (hw : env.write_open_ok = true) :
    (ast_monitor_start cfg env w chan format_spec fname_base need_lock).res = 0 ∧
    (ast_monitor_start cfg env w chan format_spec fname_base need_lock).chan
      = { chan with
          monitor := some { (determine_names cfg (mkdir env w) chan format_spec fname_base).1 with
            read_stream := some w.next_stream
            write_stream := some (w.next_stream + 1) } } ∧
    (ast_monitor_start cfg env w chan format_spec fname_base need_lock).world.seq
      = (determine_names cfg (mkdir env w) chan format_spec fname_base).2.seq ∧
    (ast_monitor_start cfg env w chan format_spec fname_base need_lock).world.files
      = fun q =>
          if q = (determine_names cfg (mkdir env w) chan format_spec fname_base).1.write_filename
          then some (w.next_stream + 1)
          else if q = (determine_names cfg (mkdir env w) chan format_spec
              fname_base).1.read_filename
          then some w.next_stream
          else w.files q := by
  rw [start_unmonitored cfg env w chan format_spec fname_base need_lock hm hl,
    open_files_ok _ _ _ _ _ hr hw, determine_names_locked]
  refine ⟨rfl, ?_, ?_, ?_⟩
  · cases need_lock <;> simp [ast_mutex_lock, ast_mutex_unlock, determine_names_world, mkdir_eq]
  · simp [determine_names_world, mkdir_eq]
  · simp [determine_names_world, mkdir_eq]

/-! ## Round trip with a custom base -/

/-- C7 (as amended): on an unmonitored channel, with a non-empty `fname_base`
`x` short enough not to be truncated, the lock acquirable and both opens
succeeding, `ast_monitor_start` returns 0 and attaches a record whose working
names are `dir/x-in` and `dir/x-out` and whose `filename_base` is empty; the
two new files are at those names.  A following `ast_monitor_stop` (lock
acquirable) returns 0, detaches the record and, from whatever world it is
called in, leaves every file where it is: the final files `dir/x-in` and
`dir/x-out` are the working files themselves, still at their working paths. -/
theorem start_stop_custom_base (cfg : Config) (env1 env2 : Env) (w w2 : World)
    (chan : ast_channel) (format_spec : Option CStr) (x : CStr) (nl1 nl2 : Bool)
    (hx : x ≠ []) (hm : chan.monitor = none)
    (hf : fits cfg (AST_MONITOR_DIR cfg ++ '/' :: x ++ ['-', 'o', 'u', 't']))
    (hl1 : nl1 = true → env1.lock_ok = true)
    (hr : env1.read_open_ok = true) (hw : env1.write_open_ok = true)
    (hl2 : nl2 = true → env2.lock_ok = true) :
    (ast_monitor_start cfg env1 w chan format_spec (some x) nl1).res = 0 ∧
    (ast_monitor_start cfg env1 w chan format_spec (some x) nl1).chan.monitor
      = some { read_stream := some w.next_stream
               write_stream := some (w.next_stream + 1)
               read_filename := AST_MONITOR_DIR cfg ++ '/' :: x ++ ['-', 'i', 'n']
               write_filename := AST_MONITOR_DIR cfg ++ '/' :: x ++ ['-', 'o', 'u', 't']
               filename_base := []
               format := if has_text format_spec = true then format_spec.getD []
                         else ['w', 'a', 'v'] } ∧
    (ast_monitor_start cfg env1 w chan format_spec (some x) nl1).world.files
      (AST_MONITOR_DIR cfg ++ '/' :: x ++ ['-', 'i', 'n']) = some w.next_stream ∧
    (ast_monitor_start cfg env1 w chan format_spec (some x) nl1).world.files
      (AST_MONITOR_DIR cfg ++ '/' :: x ++ ['-', 'o', 'u', 't']) = some (w.next_stream + 1) ∧
    (ast_monitor_stop cfg env2 w2
      (ast_monitor_start cfg env1 w chan format_spec (some x) nl1).chan nl2).res = 0 ∧
    (ast_monitor_stop cfg env2 w2
      (ast_monitor_start cfg env1 w chan format_spec (some x) nl1).chan nl2).chan.monitor
      = none ∧
    (ast_monitor_stop cfg env2 w2
      (ast_monitor_start cfg env1 w chan format_spec (some x) nl1).chan nl2).world.files
      = w2.files := by
  have hb : has_text (some x) = true := by
    cases x with
    | nil => exact absurd rfl hx
    | cons c cs => simp [has_text]
  have hfi : fits cfg (AST_MONITOR_DIR cfg ++ '/' :: x ++ ['-', 'i', 'n']) :=
    fits_of_le cfg _ _ hf (by simp)
  obtain ⟨h0, hc, _, hfiles⟩ := start_ok cfg env1 w chan format_spec (some x) nl1 hm hl1 hr hw
  have hd := determine_names_custom cfg (mkdir env1 w) chan format_spec (some x) hb
  simp only [Option.getD_some, snprintf_of_fits cfg _ hf, snprintf_of_fits cfg _ hfi] at hd
  rw [hd] at hc hfiles
  have hne : AST_MONITOR_DIR cfg ++ '/' :: x ++ ['-', 'i', 'n']
      ≠ AST_MONITOR_DIR cfg ++ '/' :: x ++ ['-', 'o', 'u', 't'] := by
    simp
  refine ⟨h0, by rw [hc], by rw [hfiles]; simp [hne], by rw [hfiles]; simp, ?_⟩
  rw [hc]
  rw [stop_monitored cfg env2 w2 _ nl2 _ rfl hl2]
  exact ⟨rfl, rfl, (stop_attached_no_base cfg w2 _ rfl).1⟩

theorem start_stop_custom_base_witness :
    (ast_monitor_start cfg64 env_ok world7 chanFoo none (some ['x']) true).res = 0 ∧
    (ast_monitor_stop cfg64 env_ok
      (ast_monitor_start cfg64 env_ok world7 chanFoo none (some ['x']) true).world
      (ast_monitor_start cfg64 env_ok world7 chanFoo none (some ['x']) true).chan true).world.files
      = (ast_monitor_start cfg64 env_ok world7 chanFoo none (some ['x']) true).world.files :=
  ⟨(start_stop_custom_base cfg64 env_ok env_ok world7
      (ast_monitor_start cfg64 env_ok world7 chanFoo none (some ['x']) true).world
      chanFoo none ['x'] true true (by decide) rfl (by decide) (fun _ => rfl) rfl rfl
      (fun _ => rfl)).1,
   (start_stop_custom_base cfg64 env_ok env_ok world7
      (ast_monitor_start cfg64 env_ok world7 chanFoo none (some ['x']) true).world
      chanFoo none ['x'] true true (by decide) rfl (by decide) (fun _ => rfl) rfl rfl
      (fun _ => rfl)).2.2.2.2.2.2⟩

/-- C7, the claim as stated fails: after Start with base `x` and Stop on
`Foo/1`, the read working file is still at its working path `dir/x-in`. -/
theorem start_stop_custom_base_keeps_working_path :
    ((ast_monitor_start cfg64 env_ok world7 chanFoo none (some ['x']) true).chan.monitor.map
      (fun m => m.read_filename)) = some (dir64 ++ "/x-in".toList) ∧
    ¬ ((ast_monitor_stop cfg64 env_ok
        (ast_monitor_start cfg64 env_ok world7 chanFoo none (some ['x']) true).world
        (ast_monitor_start cfg64 env_ok world7 chanFoo none (some ['x']) true).chan
        true).world.files (dir64 ++ "/x-in".toList) = none) := by
  decide

/-! ## Stop and a destination that is the working name -/

/-- C10, the code at the failing input: the dial-plan application `Monitor`
is run twice with the argument `wav|x` on `Foo/1` (Start with base `x`, then,
Start failing, ChangeName to `x`), then `StopMonitor`.  Before Stop both
recordings exist at their working paths `dir/x-in` and `dir/x-out`, which are
also their destinations; after Stop, which returns 0, no file exists at any
path. -/
theorem stop_destroys_recordings :
    (start_monitor_exec cfg64 env_ok env_ok
      (start_monitor_exec cfg64 env_ok env_ok world7 chanFoo (some "wav|x".toList)).world
      (start_monitor_exec cfg64 env_ok env_ok world7 chanFoo (some "wav|x".toList)).chan
      (some "wav|x".toList)).chan.monitor
      = some ⟨some 0, some 1, dir64 ++ "/x-in".toList, dir64 ++ "/x-out".toList,
          dir64 ++ "/x".toList, "wav".toList⟩ ∧
    (start_monitor_exec cfg64 env_ok env_ok
      (start_monitor_exec cfg64 env_ok env_ok world7 chanFoo (some "wav|x".toList)).world
      (start_monitor_exec cfg64 env_ok env_ok world7 chanFoo (some "wav|x".toList)).chan
      (some "wav|x".toList)).world.files (dir64 ++ "/x-in".toList) = some 0 ∧
    (start_monitor_exec cfg64 env_ok env_ok
      (start_monitor_exec cfg64 env_ok env_ok world7 chanFoo (some "wav|x".toList)).world
      (start_monitor_exec cfg64 env_ok env_ok world7 chanFoo (some "wav|x".toList)).chan
      (some "wav|x".toList)).world.files (dir64 ++ "/x-out".toList) = some 1 ∧
    (stop_monitor_exec cfg64 env_ok
      (start_monitor_exec cfg64 env_ok env_ok
        (start_monitor_exec cfg64 env_ok env_ok world7 chanFoo (some "wav|x".toList)).world
        (start_monitor_exec cfg64 env_ok env_ok world7 chanFoo (some "wav|x".toList)).chan
        (some "wav|x".toList)).world
      (start_monitor_exec cfg64 env_ok env_ok
        (start_monitor_exec cfg64 env_ok env_ok world7 chanFoo (some "wav|x".toList)).world
        (start_monitor_exec cfg64 env_ok env_ok world7 chanFoo (some "wav|x".toList)).chan
        (some "wav|x".toList)).chan).res = 0 ∧
    ∀ p, (stop_monitor_exec cfg64 env_ok
      (start_monitor_exec cfg64 env_ok env_ok
        (start_monitor_exec cfg64 env_ok env_ok world7 chanFoo (some "wav|x".toList)).world
        (start_monitor_exec cfg64 env_ok env_ok world7 chanFoo (some "wav|x".toList)).chan
        (some "wav|x".toList)).world
      (start_monitor_exec cfg64 env_ok env_ok
        (start_monitor_exec cfg64 env_ok env_ok world7 chanFoo (some "wav|x".toList)).world
        (start_monitor_exec cfg64 env_ok env_ok world7 chanFoo (some "wav|x".toList)).chan
        (some "wav|x".toList)).chan).world.files p = none := by
  refine ⟨by decide, by decide, by decide, by decide, ?_⟩
  intro p
  simp [stop_monitor_exec, start_monitor_exec, has_text, strchr, ast_monitor_start,
    ast_monitor_change_fname, ast_monitor_stop, env_ok, chanFoo, world7, cfg64, ast_mutex_lock,
    ast_mutex_unlock, mkdir, determine_names, open_files, ast_writefile, ast_fileexists,
    ast_filedelete, stop_attached, rename_working, final_in, final_out, snprintf,
    ast_filerename, ast_closestream, AST_MONITOR_DIR]
  intro h1 h2
  simp [h1, h2]

/-! ## ChangeName on a monitored channel -/

theorem has_text_some (x : CStr) (hx : x ≠ []) : has_text (some x) = true := by
  cases x with
  | nil => exact absurd rfl hx
  | cons c cs => simp [has_text]

/-- ChangeName on a monitored channel, lock acquirable: only `filename_base`
is overwritten, with what `snprintf` stores of `dir/fname_base`. -/
theorem change_fname_monitored (cfg : Config) (env : Env) (w : World) (chan : ast_channel)
    (fname_base : Option CStr) (need_lock : Bool) (m : ast_channel_monitor)
    (hm : chan.monitor = some m) (hb : has_text fname_base = true)
    (hl : need_lock = true → env.lock_ok = true) :
    ast_monitor_change_fname cfg env w chan fname_base need_lock
      = ⟨0, w, { chan with
          monitor := some { m with
            filename_base :=
              snprintf cfg.FILENAME_MAX (AST_MONITOR_DIR cfg ++ '/' :: fname_base.getD []) } }⟩ := by
  cases need_lock with
  | false => simp [ast_monitor_change_fname, hb, hm]
  | true =>
    have hlk := hl rfl
    simp [ast_monitor_change_fname, hb, hlk, ast_mutex_lock, ast_mutex_unlock, hm]

/-- C6 (as amended): for a non-empty `fname_base` `y` short enough that
`dir/y-out` is not truncated.  On every monitored channel, with the lock
acquirable, `ast_monitor_change_fname` returns 0, sets `filename_base` to
`dir/y` and leaves the working names, both stream handles, the format, the
lock, the counter and the files unchanged.  And after an auto-named Start
that succeeded with untruncated working names, ChangeName to `y` and then
Stop (locks acquirable, the working files being `a` and `b` in the world Stop
is called in) all return 0, the channel ends unmonitored, `a` is at `dir/y-in`
and `b` at `dir/y-out`, and the working names are vacant. -/
theorem change_fname_retargets (cfg : Config) (y : CStr) (hy : y ≠ [])
    (hfit : fits cfg (AST_MONITOR_DIR cfg ++ '/' :: y ++ ['-', 'o', 'u', 't'])) :
    (∀ (env : Env) (w : World) (chan : ast_channel) (need_lock : Bool)
        (m : ast_channel_monitor),
      chan.monitor = some m → (need_lock = true → env.lock_ok = true) →
      ast_monitor_change_fname cfg env w chan (some y) need_lock
        = ⟨0, w, { chan with
            monitor := some { m with filename_base := AST_MONITOR_DIR cfg ++ '/' :: y } }⟩) ∧
    (∀ (env1 env2 env3 : Env) (w w3 : World) (chan : ast_channel)
        (format_spec fname_base : Option CStr) (nl1 nl2 nl3 : Bool) (a b : Nat)
        (r1 r2 r3 : Ret),
      chan.monitor = none → has_text fname_base = false →
      (nl1 = true → env1.lock_ok = true) →
      env1.read_open_ok = true → env1.write_open_ok = true →
      fits cfg (AST_MONITOR_DIR cfg ++ ['/', 'a', 'u', 'd', 'i', 'o', '-', 'o', 'u', 't', '-']
        ++ fmt_ld cfg w.seq) →
      (nl2 = true → env2.lock_ok = true) → (nl3 = true → env3.lock_ok = true) →
      r1 = ast_monitor_start cfg env1 w chan format_spec fname_base nl1 →
      r2 = ast_monitor_change_fname cfg env2 r1.world r1.chan (some y) nl2 →
      r3 = ast_monitor_stop cfg env3 w3 r2.chan nl3 →
      w3.files (AST_MONITOR_DIR cfg ++ ['/', 'a', 'u', 'd', 'i', 'o', '-', 'i', 'n', '-']
        ++ fmt_ld cfg w.seq) = some a →
      w3.files (AST_MONITOR_DIR cfg ++ ['/', 'a', 'u', 'd', 'i', 'o', '-', 'o', 'u', 't', '-']
        ++ fmt_ld cfg w.seq) = some b →
      r1.res = 0 ∧ r2.res = 0 ∧ r3.res = 0 ∧ r3.chan.monitor = none ∧
      r3.world.files (AST_MONITOR_DIR cfg ++ '/' :: y ++ ['-', 'i', 'n']) = some a ∧
      r3.world.files (AST_MONITOR_DIR cfg ++ '/' :: y ++ ['-', 'o', 'u', 't']) = some b ∧
      r3.world.files (AST_MONITOR_DIR cfg ++ ['/', 'a', 'u', 'd', 'i', 'o', '-', 'i', 'n', '-']
        ++ fmt_ld cfg w.seq) = none ∧
      r3.world.files (AST_MONITOR_DIR cfg ++ ['/', 'a', 'u', 'd', 'i', 'o', '-', 'o', 'u', 't', '-']
        ++ fmt_ld cfg w.seq) = none) := by
  have hyt := has_text_some y hy
  have hfy : fits cfg (AST_MONITOR_DIR cfg ++ '/' :: y) := fits_of_le cfg _ _ hfit (by simp)
  constructor
  · intro env w chan need_lock m hm hl
    rw [change_fname_monitored cfg env w chan (some y) need_lock m hm hyt hl]
    simp only [Option.getD_some, snprintf_of_fits cfg _ hfy]
  · intro env1 env2 env3 w w3 chan format_spec fname_base nl1 nl2 nl3 a b r1 r2 r3
      hm hb hl1 hr hw hfw hl2 hl3 e1 e2 e3 ha hb'
    obtain ⟨h0, hc, _, _⟩ := start_ok cfg env1 w chan format_spec fname_base nl1 hm hl1 hr hw
    have hd := determine_names_auto cfg (mkdir env1 w) chan format_spec fname_base hb
    have hfr : fits cfg (AST_MONITOR_DIR cfg ++ ['/', 'a', 'u', 'd', 'i', 'o', '-', 'i', 'n', '-']
        ++ fmt_ld cfg w.seq) := fits_of_le cfg _ _ hfw (by simp)
    have hseq : (mkdir env1 w).seq = w.seq := by simp [mkdir_eq]
    rw [hseq, snprintf_of_fits cfg _ hfw, snprintf_of_fits cfg _ hfr] at hd
    rw [hd] at hc
    rw [← e1] at h0 hc
    rw [hc] at e2
    rw [change_fname_monitored cfg env2 r1.world _ (some y) nl2 _ rfl hyt hl2] at e2
    simp only [Option.getD_some, snprintf_of_fits cfg _ hfy] at e2
    obtain ⟨m, hm2, hR, hW, hB⟩ : ∃ m, r2.chan.monitor = some m ∧
        m.read_filename = AST_MONITOR_DIR cfg
          ++ ['/', 'a', 'u', 'd', 'i', 'o', '-', 'i', 'n', '-'] ++ fmt_ld cfg w.seq ∧
        m.write_filename = AST_MONITOR_DIR cfg
          ++ ['/', 'a', 'u', 'd', 'i', 'o', '-', 'o', 'u', 't', '-'] ++ fmt_ld cfg w.seq ∧
        m.filename_base = AST_MONITOR_DIR cfg ++ '/' :: y :=
      ⟨_, by rw [e2], rfl, rfl, rfl⟩
    have hst := stop_moves_both cfg env3 w3 r2.chan nl3 m a b hm2
      (by rw [hB]; exact base_ne_nil _ y) hl3 (by rw [hB]; exact hfit)
      (by rw [hR, hW, hB]; exact auto_names_nodup _ _ _ (fmt_ld_last cfg w.seq))
      (by rw [hR]; exact ha) (by rw [hW]; exact hb')
    rw [← e3, hR, hW, hB] at hst
    exact ⟨h0, by rw [e2], hst⟩

theorem change_fname_retargets_witness :
    ast_monitor_change_fname cfg64 env_ok world_auto (chan_with mon_auto)
        (some ['y']) true
      = ⟨0, world_auto,
          chan_with { mon_auto with filename_base := AST_MONITOR_DIR cfg64 ++ '/' :: ['y'] }⟩ ∧
    (run_start.res = 0 ∧ run_change.res = 0 ∧ run_stop.res = 0 ∧
      run_stop.chan.monitor = none ∧
      run_stop.world.files (AST_MONITOR_DIR cfg64 ++ '/' :: ['y'] ++ ['-', 'i', 'n']) = some 0 ∧
      run_stop.world.files (AST_MONITOR_DIR cfg64 ++ '/' :: ['y'] ++ ['-', 'o', 'u', 't'])
        = some 1 ∧
      run_stop.world.files
        (AST_MONITOR_DIR cfg64 ++ ['/', 'a', 'u', 'd', 'i', 'o', '-', 'i', 'n', '-']
          ++ fmt_ld cfg64 world7.seq) = none ∧
      run_stop.world.files
        (AST_MONITOR_DIR cfg64 ++ ['/', 'a', 'u', 'd', 'i', 'o', '-', 'o', 'u', 't', '-']
          ++ fmt_ld cfg64 world7.seq) = none) :=
  ⟨(change_fname_retargets cfg64 ['y'] (by decide) (by decide)).1 env_ok world_auto
      (chan_with mon_auto) true mon_auto rfl (fun _ => rfl),
   (change_fname_retargets cfg64 ['y'] (by decide) (by decide)).2 env_ok env_ok env_ok
      world7 run_change.world chanFoo none none true true true 0 1
      run_start run_change run_stop rfl rfl (fun _ => rfl) rfl rfl (by decide)
      (fun _ => rfl) (fun _ => rfl) rfl rfl rfl (by decide) (by decide)⟩

/-- C6, the claim as stated fails, in two ways.  When the lock is asked for
and cannot be taken, ChangeName on a monitored channel returns -1, not 0.
When `dir/y` does not fit in `FILENAME_MAX`, `filename_base` is not set to
`dir/y`. -/
theorem change_fname_retargets_fails :
    (ast_monitor_change_fname cfg64 env_lock_fails world_auto
        (chan_with mon_auto) (some ['y']) true).res = -1 ∧
    (long_name ≠ [] ∧
      (ast_monitor_change_fname cfg64 env_ok world_auto
          (chan_with mon_auto) (some long_name) true).chan.monitor.map
        (fun m => m.filename_base) ≠ some (AST_MONITOR_DIR cfg64 ++ '/' :: long_name)) := by
  have hne : long_name ≠ [] := by
    intro h
    have hl := congrArg List.length h
    simp [long_name_length] at hl
  refine ⟨by decide, hne, ?_⟩
  rw [change_fname_monitored cfg64 env_ok world_auto _ (some long_name) true mon_auto rfl
    (has_text_some long_name hne) (fun _ => rfl)]
  simp only [Option.map_some', Option.getD_some, ne_eq, Option.some.injEq]
  intro h
  have hl := congrArg List.length h
  simp only [snprintf, List.length_take, List.length_append, List.length_cons,
    long_name_length, cfg64] at hl
  omega

/-! ## Auto-generated names -/

theorem replace_slashes_no_slash (s : CStr) : '/' ∉ replace_slashes s := by
  rw [replace_slashes_eq_map]
  intro h
  obtain ⟨c, _, hc⟩ := List.mem_map.mp h
  unfold slash_to_dash at hc
  split at hc
  · exact absurd hc (by decide)
  · rename_i hne; exact hne hc

/-- C9 (as amended): on an unmonitored channel named `s`, counter at
`n < 2 ^ (ULONG_BITS - 1)`, with `fname_base` and `format_spec` NULL or empty,
the lock acquirable, both opens succeeding and no name truncated,
`ast_monitor_start` returns 0 and attaches a record with working names
`dir/audio-in-n` and `dir/audio-out-n` (`n` in decimal), format `wav` and base
`dir/san`, where `san`, the result of the replacement loop, has the length of
`s`, has at each position `-` where `s` has `/` and the character of `s`
elsewhere, and contains no `/`.  When moreover `dir/san-out` is not truncated,
a following Stop (lock acquirable, the working files being `a` and `b` in the
world it is called in) returns 0 and places `a` at `dir/san-in` and `b` at
`dir/san-out`. -/
theorem start_auto_names (cfg : Config) (env : Env) (w : World) (chan : ast_channel)
    (format_spec fname_base : Option CStr) (need_lock : Bool)
    (hn : w.seq < 2 ^ (cfg.ULONG_BITS - 1))
    (hm : chan.monitor = none) (hb : has_text fname_base = false)
    (hfs : has_text format_spec = false)
    (hl : need_lock = true → env.lock_ok = true)
    (hr : env.read_open_ok = true) (hw : env.write_open_ok = true)
    (hfw : fits cfg (AST_MONITOR_DIR cfg ++ ['/', 'a', 'u', 'd', 'i', 'o', '-', 'o', 'u', 't', '-']
      ++ Nat.toDigits 10 w.seq))
    (hfb : fits cfg (AST_MONITOR_DIR cfg ++ '/' :: replace_slashes chan.name)) :
    (ast_monitor_start cfg env w chan format_spec fname_base need_lock).res = 0 ∧
    (ast_monitor_start cfg env w chan format_spec fname_base need_lock).chan.monitor
      = some { read_stream := some w.next_stream
               write_stream := some (w.next_stream + 1)
               read_filename :=
                 AST_MONITOR_DIR cfg ++ ['/', 'a', 'u', 'd', 'i', 'o', '-', 'i', 'n', '-']
                   ++ Nat.toDigits 10 w.seq
               write_filename :=
                 AST_MONITOR_DIR cfg ++ ['/', 'a', 'u', 'd', 'i', 'o', '-', 'o', 'u', 't', '-']
                   ++ Nat.toDigits 10 w.seq
               filename_base := AST_MONITOR_DIR cfg ++ '/' :: replace_slashes chan.name
               format := ['w', 'a', 'v'] } ∧
    (replace_slashes chan.name).length = chan.name.length ∧
    (∀ i : Nat, (replace_slashes chan.name)[i]? = (chan.name[i]?).map slash_to_dash) ∧
    '/' ∉ replace_slashes chan.name ∧
    (fits cfg (AST_MONITOR_DIR cfg ++ '/' :: replace_slashes chan.name ++ ['-', 'o', 'u', 't']) →
      ∀ (env2 : Env) (w2 : World) (nl2 : Bool) (a b : Nat),
        (nl2 = true → env2.lock_ok = true) →
        w2.files (AST_MONITOR_DIR cfg ++ ['/', 'a', 'u', 'd', 'i', 'o', '-', 'i', 'n', '-']
          ++ Nat.toDigits 10 w.seq) = some a →
        w2.files (AST_MONITOR_DIR cfg ++ ['/', 'a', 'u', 'd', 'i', 'o', '-', 'o', 'u', 't', '-']
          ++ Nat.toDigits 10 w.seq) = some b →
        (ast_monitor_stop cfg env2 w2
          (ast_monitor_start cfg env w chan format_spec fname_base need_lock).chan nl2).res = 0 ∧
        (ast_monitor_stop cfg env2 w2
          (ast_monitor_start cfg env w chan format_spec fname_base need_lock).chan
          nl2).world.files
            (AST_MONITOR_DIR cfg ++ '/' :: replace_slashes chan.name ++ ['-', 'i', 'n'])
          = some a ∧
        (ast_monitor_stop cfg env2 w2
          (ast_monitor_start cfg env w chan format_spec fname_base need_lock).chan
          nl2).world.files
            (AST_MONITOR_DIR cfg ++ '/' :: replace_slashes chan.name ++ ['-', 'o', 'u', 't'])
          = some b) := by
  rw [← fmt_ld_small cfg w.seq hn] at hfw ⊢
  obtain ⟨h0, hc, _, _⟩ := start_ok cfg env w chan format_spec fname_base need_lock hm hl hr hw
  have hd := determine_names_auto cfg (mkdir env w) chan format_spec fname_base hb
  have hfr : fits cfg (AST_MONITOR_DIR cfg ++ ['/', 'a', 'u', 'd', 'i', 'o', '-', 'i', 'n', '-']
      ++ fmt_ld cfg w.seq) := fits_of_le cfg _ _ hfw (by simp)
  have hseq : (mkdir env w).seq = w.seq := by simp [mkdir_eq]
  rw [hseq, snprintf_of_fits cfg _ hfw, snprintf_of_fits cfg _ hfr,
    snprintf_of_fits cfg _ hfb] at hd
  simp only [hfs, Bool.false_eq_true, if_false] at hd
  rw [hd] at hc
  refine ⟨h0, by rw [hc], ?_, ?_, replace_slashes_no_slash _, ?_⟩
  · rw [replace_slashes_eq_map, List.length_map]
  · intro i
    rw [replace_slashes_eq_map, List.getElem?_map]
  · intro hfo env2 w2 nl2 a b hl2 ha hb2
    have hst := stop_moves_both cfg env2 w2
      (ast_monitor_start cfg env w chan format_spec fname_base need_lock).chan nl2 _ a b
      (by rw [hc]) (base_ne_nil _ _) hl2 hfo
      (auto_names_nodup _ _ _ (fmt_ld_last cfg w.seq)) ha hb2
    exact ⟨hst.1, hst.2.2.1, hst.2.2.2.1⟩

theorem start_auto_names_witness :
    run_start.res = 0 ∧
    run_start.chan.monitor = some mon_auto ∧
    (ast_monitor_stop cfg64 env_ok run_start.world run_start.chan true).world.files
      (dir64 ++ "/Foo-1-in".toList) = some 0 ∧
    (ast_monitor_stop cfg64 env_ok run_start.world run_start.chan true).world.files
      (dir64 ++ "/Foo-1-out".toList) = some 1 := by
  have e1 : replace_slashes chanFoo.name = "Foo-1".toList := by
    rw [replace_slashes_eq_map]; decide
  have h := start_auto_names cfg64 env_ok world7 chanFoo none none true (by decide) rfl rfl rfl
    (fun _ => rfl) rfl rfl (by decide) (by rw [e1]; decide)
  have h2 := h.2.2.2.2.2 (by rw [e1]; decide) env_ok run_start.world true 0 1
    (fun _ => rfl) (by decide) (by decide)
  rw [e1] at h h2
  exact ⟨h.1, h.2.1.trans (by decide), h2.2.1, h2.2.2⟩

/-- C9, the claim as stated fails, in two ways.  With the counter at `2 ^ 63`
the read working name ends in `audio-in--9223372036854775808`, the value
printed as a signed long, not in `audio-in-9223372036854775808`.  And the
sanitised form of the name `Zap/1-1` is `Zap-1-1`, which has a `-` at offset
5, where the name has no `/`. -/
theorem start_auto_names_fails :
    (world_big.seq = 9223372036854775808 ∧
      (ast_monitor_start cfg64 env_ok world_big chanFoo none none true).res = 0 ∧
      (ast_monitor_start cfg64 env_ok world_big chanFoo none none true).chan.monitor.map
        (fun m => m.read_filename)
        = some (dir64 ++ "/audio-in--9223372036854775808".toList) ∧
      (ast_monitor_start cfg64 env_ok world_big chanFoo none none true).chan.monitor.map
        (fun m => m.read_filename)
        ≠ some (AST_MONITOR_DIR cfg64 ++ ['/', 'a', 'u', 'd', 'i', 'o', '-', 'i', 'n', '-']
            ++ Nat.toDigits 10 world_big.seq)) ∧
    (replace_slashes "Zap/1-1".toList = "Zap-1-1".toList ∧
      (replace_slashes "Zap/1-1".toList)[5]? = some '-' ∧
      ("Zap/1-1".toList)[5]? ≠ some '/') := by
  have e : replace_slashes "Zap/1-1".toList = "Zap-1-1".toList := by
    rw [replace_slashes_eq_map]; decide
  refine ⟨by decide, e, ?_, by decide⟩
  rw [e]
  decide

/-! ## The sequence counter -/

theorem filerename_seq (w : World) (a b : CStr) : (ast_filerename w a b).seq = w.seq := by
  unfold ast_filerename
  cases w.files a <;> rfl

theorem rename_working_seq (w : World) (a b : CStr) : (rename_working w a b).seq = w.seq := by
  unfold rename_working
  split
  · simp only [filerename_seq]
    split <;> rfl
  · rfl

theorem stop_seq (cfg : Config) (env : Env) (w : World) (chan : ast_channel)
    (need_lock : Bool) : (ast_monitor_stop cfg env w chan need_lock).world.seq = w.seq := by
  unfold ast_monitor_stop
  split
  · rfl
  · simp only
    split
    · rename_i m _
      show (stop_attached cfg w m).seq = w.seq
      unfold stop_attached
      cases m.read_stream <;> cases m.write_stream <;> simp only [ast_closestream] <;>
        split <;> simp [rename_working_seq]
    · rfl

theorem change_fname_seq (cfg : Config) (env : Env) (w : World) (chan : ast_channel)
    (fname_base : Option CStr) (need_lock : Bool) :
    (ast_monitor_change_fname cfg env w chan fname_base need_lock).world.seq = w.seq := by
  unfold ast_monitor_change_fname
  split
  · rfl
  · split
    · rfl
    · simp only
      split <;> rfl

theorem open_files_seq (env : Env) (w : World) (chan : ast_channel)
    (m : ast_channel_monitor) (need_lock : Bool) :
    (open_files env w chan m need_lock).world.seq = w.seq := by
  cases hr : env.read_open_ok with
  | false => rw [open_files_read_fail _ _ _ _ _ hr]
  | true =>
    cases hw : env.write_open_ok with
    | false => rw [open_files_write_fail _ _ _ _ _ hr hw]
    | true => rw [open_files_ok _ _ _ _ _ hr hw]

/-- What one operation does to the counter. -/
theorem step_seq (cfg : Config) (s : System) (op : Op) :
    (step cfg s op).world.seq
      = if auto_named s op = true then (s.world.seq + 1) % 2 ^ cfg.ULONG_BITS
        else s.world.seq := by
  cases op with
  | stop c env nl => simp [step, Op.call, auto_named, stop_seq]
  | change c env fb nl => simp [step, Op.call, auto_named, change_fname_seq]
  | start c env fs fb nl =>
    simp only [step, Op.call, auto_named]
    by_cases hl : nl = true → env.lock_ok = true
    · obtain hm | ⟨m, hm⟩ := Option.eq_none_or_eq_some (s.chans c).monitor
      · rw [start_unmonitored cfg env s.world _ fs fb nl hm hl, open_files_seq,
          determine_names_world]
        have hlk : (!nl || env.lock_ok) = true := by
          cases nl with
          | false => rfl
          | true => simpa using hl rfl
        by_cases hb : has_text fb = true
        · simp [hlk, hm, hb, mkdir_eq]
        · have hb' : has_text fb = false := by simpa using hb
          simp [hlk, hm, hb', mkdir_eq]
      · rw [start_monitored cfg env s.world _ fs fb nl m hm hl]
        simp [hm]
    · have hnl : nl = true := by
        by_contra hc
        exact hl (fun h => absurd h hc)
      have hlk : env.lock_ok = false := by
        cases hv : env.lock_ok with
        | false => rfl
        | true => exact absurd (fun _ => hv) hl
      subst hnl
      rw [start_lock_failed cfg env s.world _ fs fb hlk]
      simp [hlk]

theorem mod_shift_ne (M s i : Nat) (hi : i + 1 < M) (hs : s < M) :
    ((s + 1) % M + i) % M ≠ s := by
  intro h
  rw [Nat.mod_add_mod] at h
  have h1 : (s + (1 + i)) % M = s % M := by
    rw [Nat.mod_eq_of_lt hs, ← Nat.add_assoc]
    exact h
  have h2 : (s + (1 + i)) ≡ s + 0 [MOD M] := by
    simpa [Nat.ModEq] using h1
  have h3 := Nat.ModEq.add_left_cancel' s h2
  have h4 : (1 + i) % M = 0 := by
    simpa [Nat.ModEq] using h3
  rw [Nat.mod_eq_of_lt (by omega)] at h4
  omega

/-- Every counter value in the log of an execution is the starting value
shifted by less than the length of the log. -/
theorem seq_log_shift (cfg : Config) (ops : List Op) :
    ∀ s : System, s.world.seq < 2 ^ cfg.ULONG_BITS →
      ∀ x ∈ seq_log cfg s ops, ∃ i, i < (seq_log cfg s ops).length ∧
        x = (s.world.seq + i) % 2 ^ cfg.ULONG_BITS := by
  induction ops with
  | nil => intro s _ x hx; simp [seq_log] at hx
  | cons op ops ih =>
    intro s hs x hx
    have hpos : 0 < 2 ^ cfg.ULONG_BITS := Nat.pos_of_ne_zero (by positivity)
    have hstep := step_seq cfg s op
    cases ha : auto_named s op with
    | false =>
      simp only [ha, Bool.false_eq_true, if_false] at hstep
      simp only [seq_log, ha, Bool.false_eq_true, if_false, List.nil_append] at hx ⊢
      obtain ⟨i, hi, hxi⟩ := ih (step cfg s op) (by rw [hstep]; exact hs) x hx
      exact ⟨i, hi, by rw [hxi, hstep]⟩
    | true =>
      simp only [ha, if_true] at hstep
      simp only [seq_log, ha, if_true, List.singleton_append, List.mem_cons,
        List.length_cons] at hx ⊢
      rcases hx with hx | hx
      · exact ⟨0, by omega, by rw [hx, Nat.add_zero, Nat.mod_eq_of_lt hs]⟩
      · obtain ⟨i, hi, hxi⟩ := ih (step cfg s op)
          (by rw [hstep]; exact Nat.mod_lt _ hpos) x hx
        refine ⟨i + 1, by omega, ?_⟩
        rw [hxi, hstep, Nat.mod_add_mod]
        congr 1
        omega

/-- The counter values read by the auto-named Starts of an execution with at
most `2 ^ ULONG_BITS` of them are pairwise different. -/
theorem seq_log_nodup (cfg : Config) (ops : List Op) :
    ∀ s : System, s.world.seq < 2 ^ cfg.ULONG_BITS →
      (seq_log cfg s ops).length ≤ 2 ^ cfg.ULONG_BITS → (seq_log cfg s ops).Nodup := by
  induction ops with
  | nil => intro s _ _; simp [seq_log]
  | cons op ops ih =>
    intro s hs hlen
    have hpos : 0 < 2 ^ cfg.ULONG_BITS := Nat.pos_of_ne_zero (by positivity)
    have hstep := step_seq cfg s op
    cases ha : auto_named s op with
    | false =>
      simp only [ha, Bool.false_eq_true, if_false] at hstep
      simp only [seq_log, ha, Bool.false_eq_true, if_false, List.nil_append] at hlen ⊢
      exact ih (step cfg s op) (by rw [hstep]; exact hs) hlen
    | true =>
      simp only [ha, if_true] at hstep
      simp only [seq_log, ha, if_true, List.singleton_append, List.length_cons,
        List.nodup_cons] at hlen ⊢
      have hs' : (step cfg s op).world.seq < 2 ^ cfg.ULONG_BITS := by
        rw [hstep]; exact Nat.mod_lt _ hpos
      refine ⟨?_, ih (step cfg s op) hs' (by omega)⟩
      intro hmem
      obtain ⟨i, hi, hxi⟩ := seq_log_shift cfg ops (step cfg s op) hs' _ hmem
      rw [hstep] at hxi
      exact mod_shift_ne _ _ i (by omega) hs hxi.symm

/-- After an execution the counter is its starting value plus the number of
auto-named Starts, modulo `2 ^ ULONG_BITS`. -/
theorem run_seq (cfg : Config) (ops : List Op) :
    ∀ s : System, s.world.seq < 2 ^ cfg.ULONG_BITS →
      (run cfg s ops).world.seq
        = (s.world.seq + (seq_log cfg s ops).length) % 2 ^ cfg.ULONG_BITS := by
  induction ops with
  | nil => intro s hs; simp [run, seq_log, Nat.mod_eq_of_lt hs]
  | cons op ops ih =>
    intro s hs
    have hpos : 0 < 2 ^ cfg.ULONG_BITS := Nat.pos_of_ne_zero (by positivity)
    have hstep := step_seq cfg s op
    cases ha : auto_named s op with
    | false =>
      simp only [ha, Bool.false_eq_true, if_false] at hstep
      simp only [run, seq_log, ha, Bool.false_eq_true, if_false, List.nil_append]
      rw [ih (step cfg s op) (by rw [hstep]; exact hs), hstep]
    | true =>
      simp only [ha, if_true] at hstep
      simp only [run, seq_log, ha, if_true, List.singleton_append, List.length_cons]
      rw [ih (step cfg s op) (by rw [hstep]; exact Nat.mod_lt _ hpos), hstep, Nat.mod_add_mod]
      congr 1
      omega

theorem seq_log_length_le (cfg : Config) (ops : List Op) :
    ∀ s : System, (seq_log cfg s ops).length ≤ ops.length := by
  induction ops with
  | nil => intro s; simp [seq_log]
  | cons op ops ih =>
    intro s
    have := ih (step cfg s op)
    simp only [seq_log, List.length_append, List.length_cons]
    split <;> simp <;> omega

/-- C5 (as amended): for a counter within the range of `unsigned long`.  One
lifecycle operation: a Start that takes the auto-naming branch leaves the
counter at `(n + 1) mod 2 ^ ULONG_BITS`, `n` being the value before the call,
whether or not the opens succeed, and when they do the attached working names
are what `snprintf` stores of `dir/audio-in-N` and `dir/audio-out-N`, `N`
being `n` as `%ld` prints it; every other operation (Stop, ChangeName, a
custom-base, already-monitored or lock-refused Start) leaves the counter
unchanged; so the counter does not decrease unless it wraps from
`2 ^ ULONG_BITS - 1` to 0.  An execution: when fewer than `2 ^ ULONG_BITS` of
its Starts are auto-named, the counter values they read are pairwise
different, on whatever channels and with whatever other operations in
between, and the counter ends at its starting value plus their number, modulo
`2 ^ ULONG_BITS`. -/
theorem seq_never_reused (cfg : Config) (s : System) (op : Op) (ops : List Op)
    (hs : s.world.seq < 2 ^ cfg.ULONG_BITS)
    (hn : (seq_log cfg s ops).length < 2 ^ cfg.ULONG_BITS) :
    (auto_named s op = true →
      (step cfg s op).world.seq = (s.world.seq + 1) % 2 ^ cfg.ULONG_BITS) ∧
    (auto_named s op = false → (step cfg s op).world.seq = s.world.seq) ∧
    (s.world.seq + 1 < 2 ^ cfg.ULONG_BITS → s.world.seq ≤ (step cfg s op).world.seq) ∧
    (∀ (c : Nat) (env : Env) (format_spec fname_base : Option CStr) (need_lock : Bool),
      op = .start c env format_spec fname_base need_lock → auto_named s op = true →
      env.read_open_ok = true → env.write_open_ok = true →
      ∃ m, (step cfg s op).chans c = { s.chans c with monitor := some m } ∧
        m.read_filename = snprintf cfg.FILENAME_MAX
          (AST_MONITOR_DIR cfg ++ ['/', 'a', 'u', 'd', 'i', 'o', '-', 'i', 'n', '-']
            ++ fmt_ld cfg s.world.seq) ∧
        m.write_filename = snprintf cfg.FILENAME_MAX
          (AST_MONITOR_DIR cfg ++ ['/', 'a', 'u', 'd', 'i', 'o', '-', 'o', 'u', 't', '-']
            ++ fmt_ld cfg s.world.seq)) ∧
    (seq_log cfg s ops).Nodup ∧
    (run cfg s ops).world.seq
      = (s.world.seq + (seq_log cfg s ops).length) % 2 ^ cfg.ULONG_BITS := by
  have hstep := step_seq cfg s op
  refine ⟨fun ha => by rw [hstep, if_pos ha], fun ha => by rw [hstep]; simp [ha], ?_, ?_,
    seq_log_nodup cfg ops s hs (Nat.le_of_lt hn), run_seq cfg ops s hs⟩
  · intro hlt
    rw [hstep]
    split
    · rw [Nat.mod_eq_of_lt hlt]; omega
    · exact Nat.le_refl _
  · intro c env format_spec fname_base need_lock hop ha hr hw
    subst hop
    simp only [auto_named, Bool.and_eq_true, Bool.or_eq_true, Bool.not_eq_true',
      Option.isNone_iff_eq_none] at ha
    obtain ⟨⟨hlk, hm⟩, hb⟩ := ha
    have hl : need_lock = true → env.lock_ok = true := by
      intro h
      rcases hlk with h' | h'
      · rw [h] at h'; cases h'
      · exact h'
    obtain ⟨_, hc, _, _⟩ :=
      start_ok cfg env s.world (s.chans c) format_spec fname_base need_lock hm hl hr hw
    have hd := determine_names_auto cfg (mkdir env s.world) (s.chans c) format_spec
      fname_base hb
    have hseq : (mkdir env s.world).seq = s.world.seq := by simp [mkdir_eq]
    rw [hseq] at hd
    rw [hd] at hc
    have hch : (step cfg s (.start c env format_spec fname_base need_lock)).chans c
        = (ast_monitor_start cfg env s.world (s.chans c) format_spec fname_base need_lock).chan := by
      simp only [step, Op.call, Op.target, Function.update_same]
    rw [hch, hc]
    exact ⟨_, rfl, rfl, rfl⟩

theorem seq_never_reused_witness :
    (step cfg64 sys7 op_auto).world.seq = 8 ∧
    sys7.world.seq ≤ (step cfg64 sys7 op_auto).world.seq ∧
    (step cfg64 sys7 (.stop 0 env_ok true)).world.seq = 7 ∧
    (∃ m, (step cfg64 sys7 op_auto).chans 0 = { chanFoo with monitor := some m } ∧
      m.read_filename = dir64 ++ "/audio-in-7".toList ∧
      m.write_filename = dir64 ++ "/audio-out-7".toList) ∧
    seq_log cfg64 sys7 ops7 = [7, 8, 9] ∧
    (seq_log cfg64 sys7 ops7).Nodup ∧
    (run cfg64 sys7 ops7).world.seq = 10 := by
  have hlog : seq_log cfg64 sys7 ops7 = [7, 8, 9] := by
    simp only [ops7, seq_log, step_seq]
    decide
  have hlen : (seq_log cfg64 sys7 ops7).length < 2 ^ cfg64.ULONG_BITS := by
    rw [hlog]; decide
  have h := seq_never_reused cfg64 sys7 op_auto ops7 (by decide) hlen
  have h' := seq_never_reused cfg64 sys7 (.stop 0 env_ok true) ops7 (by decide) hlen
  refine ⟨(h.1 rfl).trans (by decide), h.2.2.1 (by decide), h'.2.1 rfl, ?_, hlog,
    h.2.2.2.2.1, h.2.2.2.2.2.trans (by rw [hlog]; decide)⟩
  obtain ⟨m, hm, hr, hw⟩ := h.2.2.2.1 0 env_ok none none true rfl rfl rfl rfl
  exact ⟨m, hm, hr.trans (by decide), hw.trans (by decide)⟩

/-- C5, the claim as stated fails: with the counter at `2 ^ 64 - 1` an
auto-named Start leaves the counter at 0, which is smaller and is not
`n + 1`; the read working name it attaches ends in `audio-in--1`. -/
theorem seq_wraps_to_zero :
    auto_named sys_max op_auto = true ∧
    sys_max.world.seq = 2 ^ 64 - 1 ∧
    (step cfg64 sys_max op_auto).world.seq = 0 ∧
    (step cfg64 sys_max op_auto).world.seq < sys_max.world.seq ∧
    (step cfg64 sys_max op_auto).world.seq ≠ sys_max.world.seq + 1 ∧
    ((step cfg64 sys_max op_auto).chans 0).monitor.map (fun m => m.read_filename)
      = some (dir64 ++ "/audio-in--1".toList) := by
  have h0 : (step cfg64 sys_max op_auto).world.seq = 0 := by
    rw [step_seq]
    decide
  rw [h0]
  exact ⟨rfl, rfl, rfl, by decide, by decide, by decide⟩

end ResMonitor
